import Mathlib

/-!
Profiler daemon core: producer/consumer queue and CPU profiling service.

A shallow embedding of

* `profiler/native/utils/producer_consumer_queue.h` (class `ProducerConsumerQueue`)
* `profiler/native/perfd/cpu/cpu_service.cc` (class `CpuServiceImpl`)
* `profiler/native/network/connectivity_sampler.cc` (`ConnectivitySampler::GetRadioState`)

Every operation of the queue runs under the queue mutex, so each call is one
atomic transition on the queue state; a call to `Pop` that has to wait on the
condition variable is reported as `Outcome.blocked`.  A violated `assert` is
reported as `Outcome.assert_failed`.
-/

namespace profiler

/-- Result of running one call of the embedded code. -/
inductive Outcome (α : Type) where
  /-- The call returned normally. -/
  | done (a : α)
  /-- The call waits on the condition variable (only `Pop` can). -/
  | blocked
  /-- An `assert` of the source was violated. -/
  | assert_failed
  deriving DecidableEq, Repr

/-! ## `ProducerConsumerQueue<T>` -/

/-- Data members of `ProducerConsumerQueue<T>`: `max_length_` (an `int32_t`),
`is_finished` and the `std::deque<T> inner_queue_` (front of the deque is
the head of the list).  The mutex and the condition variable carry no data. -/
structure ProducerConsumerQueue (T : Type) where
  max_length_ : Int
  is_finished : Bool
  inner_queue_ : List T
  deriving DecidableEq, Repr

namespace ProducerConsumerQueue

variable {T : Type}

/-- Constructor `ProducerConsumerQueue(int32_t max_length = -1)`:
`assert(max_length_ > 0 || max_length_ == -1)`, empty deque, not finished. -/
def create (max_length : Int) : Outcome (ProducerConsumerQueue T) :=
  if 0 < max_length ∨ max_length = -1 then
    .done { max_length_ := max_length, is_finished := false, inner_queue_ := [] }
  else
    .assert_failed

/-- Method `bool Push(VALUE&& value)`.  The comparison of `inner_queue_.size()`
with `max_length_` is only evaluated when `max_length_ > 0`, where the
conversion of `max_length_` to the unsigned size type keeps its value. -/
def Push (q : ProducerConsumerQueue T) (value : T) :
    Outcome (Bool × ProducerConsumerQueue T) :=
  if q.is_finished then
    .done (false, q)
  else
    -- `notify_all` on an empty queue changes no data
    if 0 < q.max_length_ ∧ q.max_length_ ≤ (q.inner_queue_.length : Int) then
      if (q.inner_queue_.length : Int) = q.max_length_ then
        -- `pop_front` then `push_back`
        .done (true, { q with inner_queue_ := q.inner_queue_.tail ++ [value] })
      else
        .assert_failed
    else
      .done (true, { q with inner_queue_ := q.inner_queue_ ++ [value] })

/-- Method `bool Pop(T* value)`; `value` is the content of `*value` at the call
and the second component of the result is its content at the return. -/
def Pop (q : ProducerConsumerQueue T) (value : T) :
    Outcome (Bool × T × ProducerConsumerQueue T) :=
  if !q.is_finished && q.inner_queue_.isEmpty then
    .blocked
  else
    match q.inner_queue_ with
    | front :: rest => .done (true, front, { q with inner_queue_ := rest })
    | [] => if q.is_finished then .done (false, value, q) else .assert_failed

/-- Method `std::deque<T> Drain()`: swaps the deque with an empty one and
returns the old contents. -/
def Drain (q : ProducerConsumerQueue T) : List T × ProducerConsumerQueue T :=
  let snapshot : List T := []
  (q.inner_queue_, { q with inner_queue_ := snapshot })

/-- Method `void Finish()`. -/
def Finish (q : ProducerConsumerQueue T) : ProducerConsumerQueue T :=
  { q with is_finished := true }

end ProducerConsumerQueue

/-- One call on a queue; `pop value` carries the content of the caller's
variable passed as `&value`. -/
inductive QueueOp (T : Type) where
  | push (value : T)
  | pop (value : T)
  | drain
  | finish
  deriving DecidableEq, Repr

namespace ProducerConsumerQueue

variable {T : Type}

/-- Effect of one call on the queue state.  A `Pop` that blocks leaves the
state as it is (the consumer waits; the pop that wakes it is a later call). -/
def step (q : ProducerConsumerQueue T) : QueueOp T → Outcome (ProducerConsumerQueue T)
  | .push value =>
    match q.Push value with
    | .done r => .done r.2
    | .blocked => .blocked
    | .assert_failed => .assert_failed
  | .pop value =>
    match q.Pop value with
    | .done r => .done r.2.2
    | .blocked => .done q
    | .assert_failed => .assert_failed
  | .drain => .done q.Drain.2
  | .finish => .done q.Finish

/-- Runs a sequence of calls, stopping at the first one that does not return. -/
def run (q : ProducerConsumerQueue T) : List (QueueOp T) → Outcome (ProducerConsumerQueue T)
  | [] => .done q
  | op :: ops =>
    match q.step op with
    | .done q1 => run q1 ops
    | .blocked => .blocked
    | .assert_failed => .assert_failed

/-- The results `(return value, *value)` of `k` successive calls of `Pop`
with the same variable, up to the first call that does not return. -/
def successivePops : Nat → ProducerConsumerQueue T → T → List (Bool × T)
  | 0, _, _ => []
  | k + 1, q, value =>
    match q.Pop value with
    | .done (r, v, q1) => (r, v) :: successivePops k q1 v
    | .blocked => []
    | .assert_failed => []

/-- Invariant of the data model: a bounded queue holds at most `max_length_`
elements. -/
def Bounded (q : ProducerConsumerQueue T) : Prop :=
  0 < q.max_length_ → (q.inner_queue_.length : Int) ≤ q.max_length_

end ProducerConsumerQueue

/-! ## `std::map` -/

/-- A `std::map<K, V>`, kept as the list of its entries in ascending key
order (the order in which the map is iterated). -/
structure StdMap (K V : Type) where
  entries : List (K × V)
  deriving DecidableEq, Repr

namespace StdMap

variable {K V : Type}

/-- The empty map. -/
def empty : StdMap K V := ⟨[]⟩

/-- Lookup in a list of entries. -/
def findIn [DecidableEq K] : List (K × V) → K → Option V
  | [], _ => none
  | (k1, v1) :: rest, k => if k1 = k then some v1 else findIn rest k

/-- Ordered insertion into a list of entries, replacing the value of a key
that is present. -/
def assignIn [LinearOrder K] : List (K × V) → K → V → List (K × V)
  | [], k, v => [(k, v)]
  | (k1, v1) :: rest, k, v =>
    if k < k1 then (k, v) :: (k1, v1) :: rest
    else if k1 < k then (k1, v1) :: assignIn rest k v
    else (k, v) :: rest

/-- Member `find(k)`: `none` stands for `end()`, `some v` for an iterator to an
entry with value `v`. -/
def find [DecidableEq K] (m : StdMap K V) (k : K) : Option V :=
  findIn m.entries k

/-- Statement `m[k] = v`. -/
def assign [LinearOrder K] (m : StdMap K V) (k : K) (v : V) : StdMap K V :=
  ⟨assignIn m.entries k v⟩

/-- Member `erase(k)`. -/
def erase [DecidableEq K] (m : StdMap K V) (k : K) : StdMap K V :=
  ⟨m.entries.filter (fun e => e.1 ≠ k)⟩

/-- Expression `m[k]` read as a value: a key that is absent is first inserted
with the default value. -/
def index [DecidableEq K] [LinearOrder K] [Inhabited V] (m : StdMap K V) (k : K) :
    V × StdMap K V :=
  match m.find k with
  | some v => (v, m)
  | none => (default, m.assign k default)

end StdMap

/-! ## Messages of `CpuService` used by the profiling calls

The message types are generated from protocol files that are not part of the
sources; the fields below are the ones `cpu_service.cc` reads or writes. -/

/-- Modelled from the spec: enum `CpuProfilerType`, whose declaration is not among the
sources.  The code tests for `SIMPLEPERF` and `ATRACE` and treats every other value
as the default engine (ART). -/
inductive CpuProfilerType where
  | ART
  | SIMPLEPERF
  | ATRACE
  deriving DecidableEq, Repr

/-- Modelled from the spec: enum `CpuProfilingAppStartRequest::Mode`; the code tests
for `INSTRUMENTED` and treats every other value as sampling. -/
inductive RequestMode where
  | SAMPLING
  | INSTRUMENTED
  deriving DecidableEq, Repr

/-- Enum `ActivityManager::ProfilingMode` as used by `StartProfilingApp`. -/
inductive ProfilingMode where
  | SAMPLING
  | INSTRUMENTED
  deriving DecidableEq, Repr

/-- Status enums of the start and stop responses; `UNSPECIFIED` is the value of
a field never set. -/
inductive Status where
  | UNSPECIFIED
  | SUCCESS
  | FAILURE
  deriving DecidableEq, Repr

/-- Message `CpuProfilingAppStartRequest`; `session_pid` is `session().pid()`. -/
structure CpuProfilingAppStartRequest where
  session_pid : Int
  profiler_type : CpuProfilerType
  mode : RequestMode
  abi_cpu_arch : String
  sampling_interval_us : Int
  deriving DecidableEq, Repr

instance : Inhabited CpuProfilingAppStartRequest :=
  ⟨{ session_pid := 0, profiler_type := .ART, mode := .SAMPLING, abi_cpu_arch := "",
     sampling_interval_us := 0 }⟩

/-- Message `CpuProfilingAppStartResponse`. -/
structure CpuProfilingAppStartResponse where
  status : Status
  error_message : String
  deriving DecidableEq, Repr

/-- Message `CpuProfilingAppStopRequest`. -/
structure CpuProfilingAppStopRequest where
  session_pid : Int
  deriving DecidableEq, Repr

/-- Message `CpuProfilingAppStopResponse`. -/
structure CpuProfilingAppStopResponse where
  status : Status
  error_message : String
  trace : String
  trace_id : Int
  deriving DecidableEq, Repr

/-- Message `ProfilingStateRequest`. -/
structure ProfilingStateRequest where
  session_pid : Int
  deriving DecidableEq, Repr

/-- Message `ProfilingStateResponse`; `start_request` is `none` while the
sub-message is unset. -/
structure ProfilingStateResponse where
  being_profiled : Bool
  check_timestamp : Int
  start_timestamp : Int
  start_request : Option CpuProfilingAppStartRequest
  deriving DecidableEq, Repr

/-! ## Collaborators of `CpuServiceImpl` -/

/-- A call made by the service to one of its collaborators (the profiling
backends, the cache, the samplers), with the arguments passed by value. -/
inductive Call where
  | simpleperf_StartProfiling (app_pkg_name abi_cpu_arch : String) (sampling_interval_us : Int)
  | atrace_StartProfiling (app_pkg_name : String) (sampling_interval_us : Int)
  | activity_manager_StartProfiling (mode : ProfilingMode) (app_pkg_name : String)
      (sampling_interval_us : Int)
  | simpleperf_StopProfiling (app_pkg_name : String) (need_trace : Bool)
  | atrace_StopProfiling (app_pkg_name : String) (need_trace : Bool)
  | activity_manager_StopProfiling (app_pkg_name : String) (need_trace : Bool)
  | cache_AllocateAppCache (pid : Int)
  | cache_DeallocateAppCache (pid : Int)
  | usage_sampler_AddProcess (pid : Int)
  | usage_sampler_RemoveProcess (pid : Int)
  | thread_monitor_AddProcess (pid : Int)
  | thread_monitor_RemoveProcess (pid : Int)
  deriving DecidableEq, Repr

/-- The files of the device: path to content. -/
abbrev Files := StdMap String String

/-- What a call of a backend's `StartProfiling` leaves behind: its return value,
the contents of `*trace_path` and `*error`, and the files. -/
structure StartResult where
  success : Bool
  trace_path : String
  error : String
  files : Files
  deriving DecidableEq, Repr

/-- What a call of a backend's `StopProfiling` leaves behind: its return value,
the content of `*error`, and the files. -/
structure StopResult where
  success : Bool
  error : String
  files : Files
  deriving DecidableEq, Repr

/-- Function `remove(path)` of the C library: the file at `path`, if any, is
deleted. -/
def remove (files : Files) (path : String) : Files :=
  files.erase path

/-- Modelled from the spec: `FileReader::Read(path, &content)`, whose code is not among
the sources, reads the whole file into `content`; a file that does not exist leaves the
(empty) string as it is. -/
def FileReader_Read (files : Files) (path : String) : String :=
  match files.find path with
  | some content => content
  | none => ""

/-- Constant `INT_MAX` for a 32-bit `int`. -/
def INT_MAX : Nat := 2147483647

/-! ## `CpuServiceImpl` -/

/-- State on which the profiling calls of `CpuServiceImpl` work: the data members
`app_pids_`, `last_start_profiling_timestamps_`, `last_start_profiling_requests_`
and `trace_path_`, together with the files of the device and the calls made so
far to the collaborators. -/
structure CpuServiceImpl where
  app_pids_ : StdMap Int String
  last_start_profiling_timestamps_ : StdMap String Int
  last_start_profiling_requests_ : StdMap String CpuProfilingAppStartRequest
  trace_path_ : String
  files : Files
  calls : List Call
  deriving DecidableEq, Repr

namespace CpuServiceImpl

/-- A service that has handled no call yet, on a device with the given files. -/
def init (files : Files) : CpuServiceImpl :=
  { app_pids_ := StdMap.empty, last_start_profiling_timestamps_ := StdMap.empty,
    last_start_profiling_requests_ := StdMap.empty, trace_path_ := "",
    files := files, calls := [] }

/-- Method `StartProfilingApp`.  `GetCmdlineForPid` is the process lookup,
`now` the value of `clock_.GetCurrentTime()`, and `backend` what the one backend
that is called leaves behind. -/
def StartProfilingApp (s : CpuServiceImpl) (GetCmdlineForPid : Int → String) (now : Int)
    (backend : StartResult) (request : CpuProfilingAppStartRequest)
    (response : CpuProfilingAppStartResponse) :
    CpuServiceImpl × CpuProfilingAppStartResponse :=
  let pid := request.session_pid
  let app_pkg_name := GetCmdlineForPid pid
  if app_pkg_name = "" then
    (s, { response with error_message := "App is not running.", status := .FAILURE })
  else
    let call :=
      if request.profiler_type = .SIMPLEPERF then
        Call.simpleperf_StartProfiling app_pkg_name request.abi_cpu_arch
          request.sampling_interval_us
      else if request.profiler_type = .ATRACE then
        Call.atrace_StartProfiling app_pkg_name request.sampling_interval_us
      else
        let mode :=
          if request.mode = .INSTRUMENTED then ProfilingMode.INSTRUMENTED
          else ProfilingMode.SAMPLING
        Call.activity_manager_StartProfiling mode app_pkg_name request.sampling_interval_us
    let s1 : CpuServiceImpl :=
      { s with calls := s.calls ++ [call], trace_path_ := backend.trace_path,
               files := backend.files }
    if backend.success then
      ({ s1 with
           last_start_profiling_timestamps_ :=
             s1.last_start_profiling_timestamps_.assign app_pkg_name now,
           last_start_profiling_requests_ :=
             s1.last_start_profiling_requests_.assign app_pkg_name request,
           app_pids_ := s1.app_pids_.assign pid app_pkg_name },
       { response with status := .SUCCESS })
    else
      (s1, { response with status := .FAILURE, error_message := backend.error })

/-- Method `StopProfilingAndCleanUp(pid, response)`; `response` is `none` for a
null pointer.  `backend` is what the backend that is called leaves behind and
`rand` the value returned by `rand()`. -/
def StopProfilingAndCleanUp (s : CpuServiceImpl) (backend : StopResult) (rand : Nat)
    (pid : Int) (response : Option CpuProfilingAppStopResponse) :
    Outcome (CpuServiceImpl × Option CpuProfilingAppStopResponse) :=
  match s.app_pids_.find pid with
  | none =>
    if s.trace_path_ ≠ "" then
      .done ({ s with files := remove s.files s.trace_path_, trace_path_ := "" }, response)
    else
      .done (s, response)
  | some app_pkg_name =>
    match s.last_start_profiling_requests_.find app_pkg_name with
    | none => .assert_failed
    | some last_request =>
      let profiler_type := last_request.profiler_type
      let need_trace := response.isSome
      let call :=
        if profiler_type = .SIMPLEPERF then
          Call.simpleperf_StopProfiling app_pkg_name need_trace
        else if profiler_type = .ATRACE then
          Call.atrace_StopProfiling app_pkg_name need_trace
        else
          Call.activity_manager_StopProfiling app_pkg_name need_trace
      let response1 :=
        match response with
        | some r =>
          if backend.success then
            some { r with status := .SUCCESS,
                          trace := FileReader_Read backend.files s.trace_path_,
                          trace_id := ((rand % INT_MAX : Nat) : Int) }
          else
            some { r with status := .FAILURE, error_message := backend.error }
        | none => none
      .done ({ s with
                 calls := s.calls ++ [call],
                 files := remove backend.files s.trace_path_,
                 trace_path_ := "",
                 last_start_profiling_timestamps_ :=
                   s.last_start_profiling_timestamps_.erase app_pkg_name,
                 last_start_profiling_requests_ :=
                   s.last_start_profiling_requests_.erase app_pkg_name,
                 app_pids_ := s.app_pids_.erase pid },
             response1)

/-- Method `StopProfilingApp`. -/
def StopProfilingApp (s : CpuServiceImpl) (backend : StopResult) (rand : Nat)
    (request : CpuProfilingAppStopRequest) (response : CpuProfilingAppStopResponse) :
    Outcome (CpuServiceImpl × Option CpuProfilingAppStopResponse) :=
  s.StopProfilingAndCleanUp backend rand request.session_pid (some response)

/-- Method `CheckAppProfilingState`. -/
def CheckAppProfilingState (s : CpuServiceImpl) (GetCmdlineForPid : Int → String) (now : Int)
    (request : ProfilingStateRequest) (response : ProfilingStateResponse) :
    CpuServiceImpl × ProfilingStateResponse :=
  let pid := request.session_pid
  let app_pkg_name := GetCmdlineForPid pid
  let last_request := s.last_start_profiling_requests_.find app_pkg_name
  let is_being_profiled := last_request.isSome
  let response1 : ProfilingStateResponse :=
    { response with being_profiled := is_being_profiled, check_timestamp := now }
  if is_being_profiled then
    let t := s.last_start_profiling_timestamps_.index app_pkg_name
    let r := s.last_start_profiling_requests_.index app_pkg_name
    ({ s with last_start_profiling_timestamps_ := t.2, last_start_profiling_requests_ := r.2 },
     { response1 with start_timestamp := t.1, start_request := some r.1 })
  else
    (s, response1)

end CpuServiceImpl

/-! ## Monitoring calls and sequences of calls -/

/-- Message `CpuStopRequest`; `session_pid` is `session().pid()`. -/
structure CpuStopRequest where
  session_pid : Int
  deriving DecidableEq, Repr

/-- Message `CpuStopResponse`. -/
structure CpuStopResponse where
  status : Status
  deriving DecidableEq, Repr

namespace CpuServiceImpl

/-- Method `StopMonitoringApp`.  `usage_status` and `thread_status` are the values
returned by `usage_sampler_.RemoveProcess` and `thread_monitor_.RemoveProcess`;
`backend` and `rand` are passed on to `StopProfilingAndCleanUp(pid, nullptr)`. -/
def StopMonitoringApp (s : CpuServiceImpl) (usage_status thread_status : Status)
    (backend : StopResult) (rand : Nat) (request : CpuStopRequest)
    (response : CpuStopResponse) : Outcome (CpuServiceImpl × CpuStopResponse) :=
  let pid := request.session_pid
  let s1 : CpuServiceImpl := { s with calls := s.calls ++ [Call.cache_DeallocateAppCache pid] }
  let s2 : CpuServiceImpl :=
    { s1 with calls := s1.calls ++ [Call.usage_sampler_RemoveProcess pid] }
  let s3 : CpuServiceImpl :=
    if usage_status = .SUCCESS then
      { s2 with calls := s2.calls ++ [Call.thread_monitor_RemoveProcess pid] }
    else s2
  let status := if usage_status = .SUCCESS then thread_status else usage_status
  let response1 : CpuStopResponse := { response with status := status }
  match s3.StopProfilingAndCleanUp backend rand pid none with
  | .done r => .done (r.1, response1)
  | .blocked => .blocked
  | .assert_failed => .assert_failed

end CpuServiceImpl

/-- One call of the service that works on the profiling registry, with the answers of
the collaborators during that call. -/
inductive ServiceOp where
  | StartProfilingApp (GetCmdlineForPid : Int → String) (now : Int) (backend : StartResult)
      (request : CpuProfilingAppStartRequest) (response : CpuProfilingAppStartResponse)
  | StopProfilingApp (backend : StopResult) (rand : Nat)
      (request : CpuProfilingAppStopRequest) (response : CpuProfilingAppStopResponse)
  | StopMonitoringApp (usage_status thread_status : Status) (backend : StopResult) (rand : Nat)
      (request : CpuStopRequest) (response : CpuStopResponse)
  | CheckAppProfilingState (GetCmdlineForPid : Int → String) (now : Int)
      (request : ProfilingStateRequest) (response : ProfilingStateResponse)

namespace CpuServiceImpl

/-- Effect of one call on the state of the service. -/
def step (s : CpuServiceImpl) : ServiceOp → Outcome CpuServiceImpl
  | .StartProfilingApp GetCmdlineForPid now backend request response =>
    .done (s.StartProfilingApp GetCmdlineForPid now backend request response).1
  | .StopProfilingApp backend rand request response =>
    match s.StopProfilingApp backend rand request response with
    | .done r => .done r.1
    | .blocked => .blocked
    | .assert_failed => .assert_failed
  | .StopMonitoringApp usage_status thread_status backend rand request response =>
    match s.StopMonitoringApp usage_status thread_status backend rand request response with
    | .done r => .done r.1
    | .blocked => .blocked
    | .assert_failed => .assert_failed
  | .CheckAppProfilingState GetCmdlineForPid now request response =>
    .done (s.CheckAppProfilingState GetCmdlineForPid now request response).1

/-- Runs a sequence of calls, stopping at the first one that does not return. -/
def run (s : CpuServiceImpl) : List ServiceOp → Outcome CpuServiceImpl
  | [] => .done s
  | op :: ops =>
    match s.step op with
    | .done s1 => run s1 ops
    | .blocked => .blocked
    | .assert_failed => .assert_failed

/-- The call is a `StartProfilingApp` whose lookup resolves the request's pid to `app`
(not empty) and whose backend reports success, so that it ends with status `SUCCESS`. -/
def isSuccessfulStartFor (app : String) : ServiceOp → Prop
  | .StartProfilingApp GetCmdlineForPid _ backend request _ =>
    GetCmdlineForPid request.session_pid = app ∧ app ≠ "" ∧ backend.success = true
  | _ => False

/-- In `history`, the most recent call that is a successful `StartProfilingApp` for `app`
carries the request `request`: `history` is `before`, that call, then calls `after`
none of which is a successful start for `app`. -/
def lastSuccessfulStart (history : List ServiceOp) (app : String)
    (request : CpuProfilingAppStartRequest) : Prop :=
  ∃ (before after : List ServiceOp) (GetCmdlineForPid : Int → String) (now : Int)
    (backend : StartResult) (response : CpuProfilingAppStartResponse),
    history = before ++
      ServiceOp.StartProfilingApp GetCmdlineForPid now backend request response :: after ∧
    isSuccessfulStartFor app
      (ServiceOp.StartProfilingApp GetCmdlineForPid now backend request response) ∧
    ∀ op ∈ after, ¬ isSuccessfulStartFor app op

end CpuServiceImpl

/-- The three profiling backends of the service: `simpleperf_manager_`, `atrace_manager_`
and `ActivityManager::Instance()` (ART). -/
inductive Backend where
  | simpleperf
  | atrace
  | activity_manager
  deriving DecidableEq, Repr

/-- The backend a logged call went to; `none` for the calls to the cache and the
samplers. -/
def Call.backend : Call → Option Backend
  | .simpleperf_StartProfiling _ _ _ => some .simpleperf
  | .simpleperf_StopProfiling _ _ => some .simpleperf
  | .atrace_StartProfiling _ _ => some .atrace
  | .atrace_StopProfiling _ _ => some .atrace
  | .activity_manager_StartProfiling _ _ _ => some .activity_manager
  | .activity_manager_StopProfiling _ _ => some .activity_manager
  | _ => none

/-- The arguments `(app_pkg_name, need_trace)` of a logged `StopProfiling` call; `none`
for every other call. -/
def Call.stopArgs : Call → Option (String × Bool)
  | .simpleperf_StopProfiling app_pkg_name need_trace => some (app_pkg_name, need_trace)
  | .atrace_StopProfiling app_pkg_name need_trace => some (app_pkg_name, need_trace)
  | .activity_manager_StopProfiling app_pkg_name need_trace => some (app_pkg_name, need_trace)
  | _ => none

/-! ## `GetThreads`

The types of the cache response and of the response message are declared in headers and
protocol files that are not part of the sources; the fields below are the ones
`GetThreads` reads or writes. -/

/-- Enum `GetThreadsResponse::State`, kept as its numeric value. -/
abbrev ThreadState := Int

/-- Message `GetThreadsResponse::ThreadSnapshot::Snapshot`: one thread of a snapshot. -/
structure SnapshotThread where
  tid : Int
  name : String
  state : ThreadState
  deriving DecidableEq, Repr

/-- Message `GetThreadsResponse::ThreadSnapshot`; `threads` is its repeated field. -/
structure ThreadSnapshot where
  threads : List SnapshotThread
  timestamp : Int
  deriving DecidableEq, Repr

/-- Struct `ThreadsSample::Activity`. -/
structure Activity where
  tid : Int
  name : String
  state : ThreadState
  timestamp : Int
  deriving DecidableEq, Repr

/-- Struct `ThreadsSample`. -/
structure ThreadsSample where
  snapshot : ThreadSnapshot
  activities : List Activity
  deriving DecidableEq, Repr

/-- Struct `CpuCache::ThreadSampleResponse`. -/
structure ThreadSampleResponse where
  snapshot : ThreadSnapshot
  activity_samples : List ThreadsSample
  deriving DecidableEq, Repr

/-- Message `GetThreadsResponse::ThreadActivity`. -/
structure ThreadActivity where
  timestamp : Int
  new_state : ThreadState
  deriving DecidableEq, Repr

/-- Message `GetThreadsResponse::Thread`. -/
structure Thread where
  tid : Int
  name : String
  activities : List ThreadActivity
  deriving DecidableEq, Repr

instance : Inhabited Thread := ⟨{ tid := 0, name := "", activities := [] }⟩

/-- Message `GetThreadsResponse`; `initial_snapshot` is `none` while the sub-message is
unset. -/
structure GetThreadsResponse where
  initial_snapshot : Option ThreadSnapshot
  threads : List Thread
  deriving DecidableEq, Repr

namespace CpuServiceImpl

/-- Body of the inner loop of `GetThreads` for one activity: the thread is added to the
map if it is not there yet, then the activity is appended to `threads[tid]`. -/
def addActivity (threads : StdMap Int Thread) (activity : Activity) : StdMap Int Thread :=
  let tid := activity.tid
  let threads1 :=
    match threads.find tid with
    | none => threads.assign tid { tid := tid, name := activity.name, activities := [] }
    | some _ => threads
  let entry := threads1.index tid
  let thread_activity : ThreadActivity :=
    { timestamp := activity.timestamp, new_state := activity.state }
  entry.2.assign tid { entry.1 with activities := entry.1.activities ++ [thread_activity] }

/-- Method `GetThreads`; `threads_response` is the value returned by
`cache_.GetThreads(pid, start_timestamp, end_timestamp)`. -/
def GetThreads (threads_response : ThreadSampleResponse) (response : GetThreadsResponse) :
    GetThreadsResponse :=
  let samples := threads_response.activity_samples
  let snapshot := threads_response.snapshot
  let response1 : GetThreadsResponse :=
    if snapshot.threads.isEmpty then
      match samples with
      | front :: _ => { response with initial_snapshot := some front.snapshot }
      | [] => response
    else
      { response with initial_snapshot := some snapshot }
  let threads : StdMap Int Thread :=
    samples.foldl (fun threads sample => sample.activities.foldl addActivity threads)
      StdMap.empty
  { response1 with threads := response1.threads ++ threads.entries.map (fun thread => thread.2) }

end CpuServiceImpl

/-! ## `ConnectivitySampler::GetRadioState`

A `std::string` is kept as the list of its `char`s; a position that may be
`std::string::npos` is an `Option Nat`, with `none` for `npos`. -/

namespace StdString

/-- Search for `pattern` in `rest`, the part of a string that starts at position `pos`:
the lowest position at which `pattern` occurs, if any. -/
def findAt (pattern : List Char) : List Char → Nat → Option Nat
  | [], pos => if pattern = [] then some pos else none
  | c :: rest, pos =>
    if pattern.isPrefixOf (c :: rest) then some pos else findAt pattern rest (pos + 1)

/-- Member `find(pattern, pos)`: the lowest position not before `pos` at which `pattern`
occurs in `s`, or `npos`. -/
def find (s pattern : List Char) (pos : Nat) : Option Nat :=
  if pos ≤ s.length then findAt pattern (s.drop pos) pos else none

/-- Member `find(c, pos)` for a single `char`. -/
def findChar (s : List Char) (c : Char) (pos : Nat) : Option Nat :=
  find s [c] pos

/-- Member `substr(pos, count)` for `pos` not beyond the end of `s`: the `count` chars from
position `pos` on, or all that are left when there are fewer or `count` is `npos`. -/
def substr (s : List Char) (pos : Nat) (count : Option Nat) : List Char :=
  match count with
  | some n => (s.drop pos).take n
  | none => s.drop pos

end StdString

/-- Enum `ConnectivityData::RadioState` as used by `GetRadioState`. -/
inductive RadioState where
  | UNSPECIFIED
  | ACTIVE
  | SLEEPING
  deriving DecidableEq, Repr

namespace ConnectivitySampler

/-- Method `GetRadioState`.  `ran` is the value returned by `command.Run("", &line)` and
`line` the output it stored. -/
def GetRadioState (ran : Bool) (line : List Char) : RadioState :=
  if ran then
    match StdString.find line "mNetworkActive=".toList 0 with
    | some start =>
      let end_ := StdString.findChar line '\n' start
      match StdString.find (StdString.substr line start end_) "true".toList 0 with
      | some _ => .ACTIVE
      | none => .SLEEPING
    | none => .UNSPECIFIED
  else
    .UNSPECIFIED

end ConnectivitySampler

/-! ## Lemmas on the queue -/

namespace ProducerConsumerQueue

variable {T : Type}

theorem step_bounded (q : ProducerConsumerQueue T) (op : QueueOp T) (hq : q.Bounded) :
    ∃ q1, q.step op = .done q1 ∧ q1.Bounded ∧ q1.max_length_ = q.max_length_ := by
  unfold Bounded at hq
  cases op with
  | push value =>
    by_cases hf : q.is_finished = true
    · exact ⟨q, by simp [step, Push, hf], hq, rfl⟩
    · by_cases hfull : 0 < q.max_length_ ∧ q.max_length_ ≤ (q.inner_queue_.length : Int)
      · have hlen : (q.inner_queue_.length : Int) = q.max_length_ :=
          le_antisymm (hq hfull.1) hfull.2
        refine ⟨{ q with inner_queue_ := q.inner_queue_.tail ++ [value] }, ?_, ?_, rfl⟩
        · simp [step, Push, hf, hfull, hlen]
        · intro hpos
          have hne : 0 < q.inner_queue_.length := by omega
          simp only [List.length_append, List.length_tail, List.length_singleton]
          omega
      · refine ⟨{ q with inner_queue_ := q.inner_queue_ ++ [value] }, ?_, ?_, rfl⟩
        · simp [step, Push, hf, hfull]
        · intro hpos
          simp only [List.length_append, List.length_singleton]
          have : ¬ q.max_length_ ≤ (q.inner_queue_.length : Int) := fun h => hfull ⟨hpos, h⟩
          push_cast
          omega
  | pop value =>
    cases hb : q.inner_queue_ with
    | nil =>
      by_cases hf : q.is_finished = true
      · exact ⟨q, by simp [step, Pop, hb, hf], hq, rfl⟩
      · exact ⟨q, by simp [step, Pop, hb, hf], hq, rfl⟩
    | cons front rest =>
      refine ⟨{ q with inner_queue_ := rest }, by simp [step, Pop, hb], ?_, rfl⟩
      intro hpos
      have := hq hpos
      rw [hb] at this
      simp only [List.length_cons] at this
      push_cast at this
      show (rest.length : Int) ≤ q.max_length_
      omega
  | drain =>
    refine ⟨q.Drain.2, rfl, ?_, rfl⟩
    intro hpos
    show ((0 : Nat) : Int) ≤ q.max_length_
    have : q.Drain.2.max_length_ = q.max_length_ := rfl
    omega
  | finish => exact ⟨q.Finish, rfl, hq, rfl⟩

theorem run_bounded (ops : List (QueueOp T)) :
    ∀ q : ProducerConsumerQueue T, q.Bounded →
      ∃ q1, q.run ops = .done q1 ∧ q1.Bounded ∧ q1.max_length_ = q.max_length_ := by
  induction ops with
  | nil => intro q hq; exact ⟨q, rfl, hq, rfl⟩
  | cons op ops ih =>
    intro q hq
    obtain ⟨q1, h1, hb1, hm1⟩ := step_bounded q op hq
    obtain ⟨q2, h2, hb2, hm2⟩ := ih q1 hb1
    exact ⟨q2, by simp [run, h1, h2], hb2, hm2.trans hm1⟩

theorem step_finished (q : ProducerConsumerQueue T) (op : QueueOp T)
    (hf : q.is_finished = true) :
    ∃ q1, q.step op = .done q1 ∧ q1.is_finished = true := by
  cases op with
  | push value => exact ⟨q, by simp [step, Push, hf], hf⟩
  | pop value =>
    cases hb : q.inner_queue_ with
    | nil => exact ⟨q, by simp [step, Pop, hb, hf], hf⟩
    | cons front rest =>
      exact ⟨{ q with inner_queue_ := rest }, by simp [step, Pop, hb], hf⟩
  | drain => exact ⟨q.Drain.2, rfl, hf⟩
  | finish => exact ⟨q.Finish, rfl, rfl⟩

theorem run_finished (ops : List (QueueOp T)) :
    ∀ q : ProducerConsumerQueue T, q.is_finished = true →
      ∃ q1, q.run ops = .done q1 ∧ q1.is_finished = true := by
  induction ops with
  | nil => intro q hq; exact ⟨q, rfl, hq⟩
  | cons op ops ih =>
    intro q hq
    obtain ⟨q1, h1, hf1⟩ := step_finished q op hq
    obtain ⟨q2, h2, hf2⟩ := ih q1 hf1
    exact ⟨q2, by simp [run, h1, h2], hf2⟩

theorem run_append (xs ys : List (QueueOp T)) :
    ∀ q q1 : ProducerConsumerQueue T, q.run xs = .done q1 → q.run (xs ++ ys) = q1.run ys := by
  induction xs with
  | nil => intro q q1 h; simp only [run, Outcome.done.injEq] at h; subst h; rfl
  | cons op xs ih =>
    intro q q1 h
    simp only [run, List.cons_append] at h ⊢
    cases hs : q.step op with
    | done q2 => rw [hs] at h; simp only at h ⊢; exact ih q2 q1 h
    | blocked => rw [hs] at h; simp at h
    | assert_failed => rw [hs] at h; simp at h

/-- Pushing `vs` into an unfinished bounded queue of capacity `c` whose buffer `b`
respects the bound leaves the last `c` elements of `b ++ vs`. -/
theorem run_push_bounded (c : Nat) (hc : 0 < c) (vs : List T) :
    ∀ b : List T, b.length ≤ c →
      run ⟨(c : Int), false, b⟩ (vs.map QueueOp.push)
        = .done ⟨(c : Int), false, (b ++ vs).drop ((b ++ vs).length - c)⟩ := by
  induction vs with
  | nil =>
    intro b hb
    have : b.length - c = 0 := by omega
    simp [run, this]
  | cons v vs ih =>
    intro b hb
    by_cases hfull : b.length = c
    · cases b with
      | nil => simp at hfull; omega
      | cons x rest =>
        have hrest : (rest ++ [v]).length ≤ c := by
          simp only [List.length_cons] at hfull; simp; omega
        have hstep : step ⟨(c : Int), false, x :: rest⟩ (QueueOp.push v)
            = .done ⟨(c : Int), false, rest ++ [v]⟩ := by
          simp only [List.length_cons] at hfull
          simp [step, Push, hfull.symm]
        simp only [List.map_cons, run, hstep]
        rw [ih (rest ++ [v]) hrest]
        simp only [List.length_cons] at hfull
        have e1 : (rest ++ [v] ++ vs).length - c = vs.length := by simp; omega
        have e2 : (x :: rest ++ v :: vs).length - c = vs.length + 1 := by simp; omega
        rw [e1, e2]
        simp
    · have hlt : b.length < c := by omega
      have hstep : step ⟨(c : Int), false, b⟩ (QueueOp.push v)
          = .done ⟨(c : Int), false, b ++ [v]⟩ := by
        have hn : ¬ (0 < (c : Int) ∧ (c : Int) ≤ (b.length : Int)) := by omega
        simp only [step, Push, Bool.false_eq_true, if_false, if_neg hn]
      simp only [List.map_cons, run, hstep]
      rw [ih (b ++ [v]) (by simp; omega)]
      simp

/-- Pushing `vs` into an unfinished queue without bound appends `vs`. -/
theorem run_push_unbounded (m : Int) (hm : m ≤ 0) (vs : List T) :
    ∀ b : List T,
      run ⟨m, false, b⟩ (vs.map QueueOp.push) = .done ⟨m, false, b ++ vs⟩ := by
  induction vs with
  | nil => intro b; simp [run]
  | cons v vs ih =>
    intro b
    have hstep : step ⟨m, false, b⟩ (QueueOp.push v) = .done ⟨m, false, b ++ [v]⟩ := by
      have hn : ¬ (0 < m ∧ m ≤ (b.length : Int)) := by omega
      simp only [step, Push, Bool.false_eq_true, if_false, if_neg hn]
    simp only [List.map_cons, run, hstep]
    rw [ih (b ++ [v])]
    simp

/-- On a finished queue with buffer `ws`, the first `ws.length` calls of `Pop`
return the elements of `ws` in order and every later call returns `false`. -/
theorem successivePops_finished (m : Int) (ws : List T) :
    ∀ (j : Nat) (value : T),
      successivePops (ws.length + j) ⟨m, true, ws⟩ value
        = ws.map (fun w => (true, w)) ++ List.replicate j (false, ws.getLastD value) := by
  induction ws with
  | nil =>
    intro j
    induction j with
    | zero => intro value; simp [successivePops]
    | succ j ih =>
      intro value
      have := ih value
      simp only [List.length_nil, Nat.zero_add, List.map_nil, List.nil_append,
        List.getLastD_nil] at this ⊢
      simp [successivePops, Pop, this, List.replicate_succ]
  | cons w ws ih =>
    intro j value
    have e : (w :: ws).length + j = (ws.length + j) + 1 := by simp; omega
    rw [e]
    simp only [successivePops, Pop, Bool.not_true, Bool.false_and, Bool.false_eq_true,
      if_false, List.map_cons, List.cons_append]
    rw [ih j w, List.getLastD_cons]

end ProducerConsumerQueue

/-! ## Lemmas on `std::map` -/

namespace StdMap

variable {K V : Type}

theorem findIn_assignIn_self [DecidableEq K] [LinearOrder K] (l : List (K × V)) (k : K) (v : V) :
    findIn (assignIn l k v) k = some v := by
  induction l with
  | nil => simp [assignIn, findIn]
  | cons e rest ih =>
    obtain ⟨k1, v1⟩ := e
    by_cases h1 : k < k1
    · simp [assignIn, findIn, h1]
    · by_cases h2 : k1 < k
      · simp [assignIn, findIn, h1, h2, ne_of_lt h2, ih]
      · simp [assignIn, findIn, h1, h2]

theorem findIn_assignIn_other [DecidableEq K] [LinearOrder K] (l : List (K × V)) (k j : K) (v : V)
    (hj : j ≠ k) : findIn (assignIn l k v) j = findIn l j := by
  induction l with
  | nil => simp [assignIn, findIn, Ne.symm hj]
  | cons e rest ih =>
    obtain ⟨k1, v1⟩ := e
    by_cases h1 : k < k1
    · simp [assignIn, findIn, h1, Ne.symm hj]
    · by_cases h2 : k1 < k
      · simp [assignIn, findIn, h1, h2, ih]
      · have hk : k1 = k := le_antisymm (not_lt.mp h1) (not_lt.mp h2)
        subst hk
        simp [assignIn, findIn, Ne.symm hj]

theorem findIn_filter_self [DecidableEq K] (l : List (K × V)) (k : K) :
    findIn (l.filter (fun e => e.1 ≠ k)) k = none := by
  induction l with
  | nil => simp [findIn]
  | cons e rest ih =>
    obtain ⟨k1, v1⟩ := e
    simp only [ne_eq, decide_not] at ih ⊢
    by_cases h : k1 = k
    · simp [List.filter_cons, h, ih]
    · simp [List.filter_cons, h, findIn, ih]

theorem findIn_filter_other [DecidableEq K] (l : List (K × V)) (k j : K) (hj : j ≠ k) :
    findIn (l.filter (fun e => e.1 ≠ k)) j = findIn l j := by
  induction l with
  | nil => simp [findIn]
  | cons e rest ih =>
    obtain ⟨k1, v1⟩ := e
    simp only [ne_eq, decide_not] at ih ⊢
    by_cases h : k1 = k
    · subst h
      simp [List.filter_cons, findIn, ih, Ne.symm hj]
    · by_cases h3 : k1 = j
      · subst h3
        simp [List.filter_cons, h, findIn]
      · simp [List.filter_cons, h, findIn, h3, ih]

theorem find_assign_self [DecidableEq K] [LinearOrder K] (m : StdMap K V) (k : K) (v : V) :
    (m.assign k v).find k = some v :=
  findIn_assignIn_self m.entries k v

theorem find_assign_other [DecidableEq K] [LinearOrder K] (m : StdMap K V) (k j : K) (v : V) (hj : j ≠ k) :
    (m.assign k v).find j = m.find j :=
  findIn_assignIn_other m.entries k j v hj

theorem find_erase_self [DecidableEq K] (m : StdMap K V) (k : K) :
    (m.erase k).find k = none :=
  findIn_filter_self m.entries k

theorem find_erase_other [DecidableEq K] (m : StdMap K V) (k j : K) (hj : j ≠ k) :
    (m.erase k).find j = m.find j :=
  findIn_filter_other m.entries k j hj

theorem index_of_find [DecidableEq K] [LinearOrder K] [Inhabited V] (m : StdMap K V) (k : K) (v : V)
    (h : m.find k = some v) : m.index k = (v, m) := by
  simp [index, h]

end StdMap

/-! ## Properties of the queue -/

/-- C1: for every capacity `C > 0` and every sequence of Push/Pop/Drain/Finish calls on
a queue freshly constructed with `max_length = C`, every call returns and after each of
them (after the first `k` calls, for every `k`) the buffer holds at most `C` elements. -/
theorem C1_buffer_at_most_capacity {T : Type} (C : Int) (hC : 0 < C)
    (ops : List (QueueOp T)) (k : Nat) :
    ∃ q0 q : ProducerConsumerQueue T,
      ProducerConsumerQueue.create C = .done q0 ∧ q0.run (ops.take k) = .done q ∧
        (q.inner_queue_.length : Int) ≤ C := by
  refine ⟨⟨C, false, []⟩, ?_⟩
  have hb : ProducerConsumerQueue.Bounded (⟨C, false, []⟩ : ProducerConsumerQueue T) := by
    intro _
    show ((0 : Nat) : Int) ≤ C
    omega
  obtain ⟨q, hrun, hbq, hmq⟩ := ProducerConsumerQueue.run_bounded (ops.take k) _ hb
  refine ⟨q, by simp [ProducerConsumerQueue.create, hC], hrun, ?_⟩
  have hmq1 : q.max_length_ = C := hmq
  have := hbq (by omega)
  omega

/-- C1 at capacity 2, after the first four of five calls. -/
theorem C1_buffer_at_most_capacity_witness :
    ∃ q0 q : ProducerConsumerQueue Nat,
      ProducerConsumerQueue.create 2 = .done q0 ∧
        q0.run (List.take 4 [.push 1, .push 2, .push 3, .pop 0, .push 4]) = .done q ∧
        (q.inner_queue_.length : Int) ≤ 2 :=
  C1_buffer_at_most_capacity 2 (by decide) [.push 1, .push 2, .push 3, .pop 0, .push 4] 4

/-- C2: on an unfinished queue with buffer `b`, `Push(v)` returns `true`: when the queue
is bounded and `b` holds exactly `max_length_` elements the new buffer is `b` without its
first element followed by `v`; when the queue is not bounded or `b` holds fewer elements
the new buffer is `b` followed by `v`.  A queue that respects its bound is in one of the
two cases. -/
theorem C2_push_drops_oldest_when_full {T : Type} (q : ProducerConsumerQueue T) (v : T)
    (hf : q.is_finished = false) :
    (0 < q.max_length_ ∧ (q.inner_queue_.length : Int) = q.max_length_ →
        q.Push v = .done (true, { q with inner_queue_ := q.inner_queue_.tail ++ [v] })) ∧
    (q.max_length_ ≤ 0 ∨ (q.inner_queue_.length : Int) < q.max_length_ →
        q.Push v = .done (true, { q with inner_queue_ := q.inner_queue_ ++ [v] })) ∧
    (q.Bounded →
        (0 < q.max_length_ ∧ (q.inner_queue_.length : Int) = q.max_length_) ∨
        (q.max_length_ ≤ 0 ∨ (q.inner_queue_.length : Int) < q.max_length_)) := by
  refine ⟨?_, ?_, ?_⟩
  · rintro ⟨hpos, hlen⟩
    have hc : 0 < q.max_length_ ∧ q.max_length_ ≤ (q.inner_queue_.length : Int) :=
      ⟨hpos, by omega⟩
    simp only [ProducerConsumerQueue.Push, hf, Bool.false_eq_true, if_false, if_pos hc, if_pos hlen]
  · intro h
    have hc : ¬ (0 < q.max_length_ ∧ q.max_length_ ≤ (q.inner_queue_.length : Int)) := by
      omega
    simp only [ProducerConsumerQueue.Push, hf, Bool.false_eq_true, if_false, if_neg hc]
  · intro hb
    unfold ProducerConsumerQueue.Bounded at hb
    by_cases hpos : 0 < q.max_length_
    · have := hb hpos
      omega
    · omega

/-- C2 on a full queue of capacity 2 holding `[1, 2]`: pushing 3 leaves `[2, 3]`. -/
theorem C2_push_drops_oldest_when_full_witness :
    (⟨2, false, [1, 2]⟩ : ProducerConsumerQueue Nat).Push 3
      = .done (true, ⟨2, false, [2, 3]⟩) :=
  (C2_push_drops_oldest_when_full ⟨2, false, [1, 2]⟩ 3 rfl).1 (by decide)

/-- C3: after `Finish()`, whatever Push/Pop/Drain/Finish calls follow, every one of them
returns, the finished flag is still set, and a `Push` returns `false` and leaves the
queue (its buffer included) as it is. -/
theorem C3_finished_forever {T : Type} (q : ProducerConsumerQueue T)
    (ops : List (QueueOp T)) (v : T) :
    ∃ q1, q.Finish.run ops = .done q1 ∧ q1.is_finished = true ∧
      q1.Push v = .done (false, q1) := by
  obtain ⟨q1, hrun, hf⟩ := ProducerConsumerQueue.run_finished ops q.Finish rfl
  exact ⟨q1, hrun, hf, by simp [ProducerConsumerQueue.Push, hf]⟩

/-- C4: `Pop` on a non-empty buffer returns `true` with the first element and removes
exactly it, finished or not; a `Pop` that returns gives `false` exactly when the buffer is
empty and the queue finished, and then the variable and the queue are unchanged; `Pop`
blocks exactly when the buffer is empty and the queue is not finished, and its assertion
never fails. -/
theorem C4_pop_returns_oldest {T : Type} (q : ProducerConsumerQueue T) (value : T) :
    (∀ front rest, q.inner_queue_ = front :: rest →
        q.Pop value = .done (true, front, { q with inner_queue_ := rest })) ∧
    (∀ r, q.Pop value = .done r →
        (r.1 = false ↔ (q.inner_queue_ = [] ∧ q.is_finished = true))) ∧
    (q.inner_queue_ = [] ∧ q.is_finished = true → q.Pop value = .done (false, value, q)) ∧
    (q.Pop value = .blocked ↔ (q.inner_queue_ = [] ∧ q.is_finished = false)) ∧
    q.Pop value ≠ .assert_failed := by
  obtain ⟨m, f, b⟩ := q
  cases b with
  | nil => cases f <;> simp [ProducerConsumerQueue.Pop]
  | cons x rest => cases f <;> simp [ProducerConsumerQueue.Pop]

/-- C4 on a finished queue that still holds `[5, 6]`: `Pop` returns 5 and leaves `[6]`. -/
theorem C4_pop_returns_oldest_witness :
    (⟨2, true, [5, 6]⟩ : ProducerConsumerQueue Nat).Pop 0
      = .done (true, 5, ⟨2, true, [6]⟩) :=
  (C4_pop_returns_oldest ⟨2, true, [5, 6]⟩ 0).1 5 [6] rfl

/-- C5: push `vs` in order into a queue freshly constructed with `max_length = C`
(`C > 0`, or `C = -1` for no bound), then call `Finish()`: all these calls return, and with
`ws` the last `min(|vs|, C)` elements of `vs` (all of `vs` when there is no bound), the
first `|ws|` successive calls of `Pop` return `true` with the elements of `ws` in push
order and each of the `j` calls after them returns `false`. -/
theorem C5_pops_after_finish {T : Type} (C : Int) (hC : 0 < C ∨ C = -1) (vs : List T)
    (value : T) (j : Nat) (ws : List T)
    (hws : ws = if 0 < C then vs.drop (vs.length - min vs.length C.toNat) else vs) :
    ∃ q0 q : ProducerConsumerQueue T,
      ProducerConsumerQueue.create C = .done q0 ∧
      q0.run (vs.map QueueOp.push ++ [QueueOp.finish]) = .done q ∧
      q.successivePops (ws.length + j) value
        = ws.map (fun w => (true, w)) ++ List.replicate j (false, ws.getLastD value) := by
  refine ⟨⟨C, false, []⟩, ⟨C, true, ws⟩, ?_, ?_, ?_⟩
  · simp [ProducerConsumerQueue.create, hC]
  · by_cases hpos : 0 < C
    · obtain ⟨c, rfl⟩ : ∃ c : Nat, C = (c : Int) := ⟨C.toNat, by omega⟩
      have hc : 0 < c := by omega
      have hpush := ProducerConsumerQueue.run_push_bounded c hc vs ([] : List T) (by simp)
      rw [ProducerConsumerQueue.run_append _ _ _ _ hpush]
      have hdrop : vs.length - min vs.length c = vs.length - c := by omega
      simp only [if_pos hpos, Int.toNat_ofNat, hdrop] at hws
      simp [ProducerConsumerQueue.run, ProducerConsumerQueue.step,
        ProducerConsumerQueue.Finish, hws]
    · have hpush := ProducerConsumerQueue.run_push_unbounded C (by omega) vs ([] : List T)
      rw [ProducerConsumerQueue.run_append _ _ _ _ hpush]
      simp only [if_neg hpos] at hws
      simp [ProducerConsumerQueue.run, ProducerConsumerQueue.step,
        ProducerConsumerQueue.Finish, hws]
  · exact ProducerConsumerQueue.successivePops_finished C ws j value

/-- C5 at capacity 2 with pushes 1, 2, 3: the pops return 2, then 3, then `false`. -/
theorem C5_pops_after_finish_witness :
    ∃ q0 q : ProducerConsumerQueue Nat,
      ProducerConsumerQueue.create 2 = .done q0 ∧
      q0.run ([1, 2, 3].map QueueOp.push ++ [QueueOp.finish]) = .done q ∧
      q.successivePops 3 0 = [(true, 2), (true, 3), (false, 3)] :=
  C5_pops_after_finish 2 (Or.inl (by decide)) [1, 2, 3] 0 1 [2, 3] (by decide)

/-- C6: `Drain()` returns the buffer in arrival order and leaves the buffer empty, the
capacity and the finished flag as they were; on an unfinished queue a `Push(v)` that
follows returns `true` and the buffer is `[v]`. -/
theorem C6_drain_returns_all {T : Type} (q : ProducerConsumerQueue T) (v : T) :
    q.Drain.1 = q.inner_queue_ ∧
    q.Drain.2.inner_queue_ = [] ∧
    q.Drain.2.max_length_ = q.max_length_ ∧
    q.Drain.2.is_finished = q.is_finished ∧
    (q.is_finished = false →
      q.Drain.2.Push v
        = .done (true, { max_length_ := q.max_length_, is_finished := false,
                         inner_queue_ := [v] })) := by
  refine ⟨rfl, rfl, rfl, rfl, ?_⟩
  intro hf
  have hn : ¬ (0 < q.max_length_ ∧ q.max_length_ ≤ ((0 : Nat) : Int)) := by omega
  simp only [ProducerConsumerQueue.Drain, ProducerConsumerQueue.Push, hf, Bool.false_eq_true,
    if_false, List.length_nil, if_neg hn, List.nil_append]

/-- C6 on an unfinished queue of capacity 2 holding `[1, 2]`. -/
theorem C6_drain_returns_all_witness :
    ((⟨2, false, [1, 2]⟩ : ProducerConsumerQueue Nat).Drain.2.Push 7)
      = .done (true, ⟨2, false, [7]⟩) :=
  (C6_drain_returns_all ⟨2, false, [1, 2]⟩ 7).2.2.2.2 rfl

/-! ## Properties of the profiling calls -/

/-- Cleanup of a session whose start request is stored: when `pid` is tracked (`app_pids_`
maps it to an application)
and a start request is stored for that application, `StopProfilingAndCleanUp(pid, response)`
returns, whatever the backend answers and with or without a response object, and leaves no
start timestamp and no start request for the application, no entry for `pid` in `app_pids_`
and an empty `trace_path_`.  In particular, after a `StartProfilingApp` that succeeded for
`pid`, a `StopProfilingApp` for the same pid returns and leaves no start request, no
timestamp, no pid entry and an empty `trace_path_`. -/
theorem stop_erases_stored_session (s : CpuServiceImpl) (backend : StopResult) (rand : Nat)
    (pid : Int) (response : Option CpuProfilingAppStopResponse) (app : String)
    (last_request : CpuProfilingAppStartRequest)
    (hpid : s.app_pids_.find pid = some app)
    (hreq : s.last_start_profiling_requests_.find app = some last_request) :
    (∃ s1 response1,
      s.StopProfilingAndCleanUp backend rand pid response = .done (s1, response1) ∧
      s1.last_start_profiling_timestamps_.find app = none ∧
      s1.last_start_profiling_requests_.find app = none ∧
      s1.app_pids_.find pid = none ∧
      s1.trace_path_ = "") ∧
    (∀ (s0 : CpuServiceImpl) (GetCmdlineForPid : Int → String) (now : Int)
        (started : StartResult) (request : CpuProfilingAppStartRequest)
        (start_response : CpuProfilingAppStartResponse)
        (stop_request : CpuProfilingAppStopRequest)
        (stop_response : CpuProfilingAppStopResponse),
      (s0.StartProfilingApp GetCmdlineForPid now started request start_response).2.status
          = .SUCCESS →
      stop_request.session_pid = request.session_pid →
      ∃ s2 response2,
        (s0.StartProfilingApp GetCmdlineForPid now started request start_response).1.StopProfilingApp
            backend rand stop_request stop_response = .done (s2, response2) ∧
        s2.last_start_profiling_requests_.find (GetCmdlineForPid request.session_pid) = none ∧
        s2.last_start_profiling_timestamps_.find (GetCmdlineForPid request.session_pid) = none ∧
        s2.app_pids_.find request.session_pid = none ∧
        s2.trace_path_ = "") := by
  constructor
  · refine ⟨_, _, by simp only [CpuServiceImpl.StopProfilingAndCleanUp, hpid, hreq]; rfl,
      ?_, ?_, ?_, rfl⟩
    · exact StdMap.find_erase_self _ _
    · exact StdMap.find_erase_self _ _
    · exact StdMap.find_erase_self _ _
  · intro s0 GetCmdlineForPid now started request start_response stop_request stop_response
      hok hsame
    by_cases hempty : GetCmdlineForPid request.session_pid = ""
    · simp [CpuServiceImpl.StartProfilingApp, hempty] at hok
    · by_cases hsucc : started.success = true
      · have hp : (s0.StartProfilingApp GetCmdlineForPid now started request
            start_response).1.app_pids_.find stop_request.session_pid
              = some (GetCmdlineForPid request.session_pid) := by
          rw [hsame]
          simp only [CpuServiceImpl.StartProfilingApp, hempty, if_false, hsucc, if_true]
          exact StdMap.find_assign_self _ _ _
        have hr : (s0.StartProfilingApp GetCmdlineForPid now started request
            start_response).1.last_start_profiling_requests_.find
              (GetCmdlineForPid request.session_pid) = some request := by
          simp only [CpuServiceImpl.StartProfilingApp, hempty, if_false, hsucc, if_true]
          exact StdMap.find_assign_self _ _ _
        refine ⟨_, _, by
          simp only [CpuServiceImpl.StopProfilingApp, CpuServiceImpl.StopProfilingAndCleanUp,
            hp, hr]; rfl, ?_, ?_, ?_, rfl⟩
        · exact StdMap.find_erase_self _ _
        · exact StdMap.find_erase_self _ _
        · rw [← hsame]
          exact StdMap.find_erase_self _ _
      · simp [CpuServiceImpl.StartProfilingApp, hempty, hsucc] at hok

/-- The cleanup on a registry that tracks pid 7 as `"app"` with a trace staged, the
backend's stop failing and no response object. -/
theorem stop_erases_stored_session_example :
    ∃ s1 response1,
      CpuServiceImpl.StopProfilingAndCleanUp
          { app_pids_ := ⟨[(7, "app")]⟩,
            last_start_profiling_timestamps_ := ⟨[("app", 5)]⟩,
            last_start_profiling_requests_ := ⟨[("app", ⟨7, .ATRACE, .SAMPLING, "arm", 1000⟩)]⟩,
            trace_path_ := "/data/trace",
            files := ⟨[("/data/trace", "bytes")]⟩,
            calls := [] }
          ⟨false, "failed", ⟨[("/data/trace", "bytes")]⟩⟩ 0 7 none = .done (s1, response1) ∧
      s1.last_start_profiling_timestamps_.find "app" = none ∧
      s1.last_start_profiling_requests_.find "app" = none ∧
      s1.app_pids_.find 7 = none ∧
      s1.trace_path_ = "" :=
  (stop_erases_stored_session _ _ 0 7 none "app" ⟨7, .ATRACE, .SAMPLING, "arm", 1000⟩
    (by decide) (by decide)).1

/-- C7 fails on the code: start profiling for pids 1 and 2 that both resolve to `"app"`,
then stop pid 1.  Pid 2 is still tracked, the start request of `"app"` is gone, and
`StopProfilingAndCleanUp(2, nullptr)` stops at its assertion on the stored request instead
of cleaning up: it does not return, and the entry of pid 2 is never erased. -/
theorem C7_stop_of_tracked_pid_fails_assertion :
    ∃ s3 : CpuServiceImpl,
      (((CpuServiceImpl.init StdMap.empty).StartProfilingApp (fun _ => "app") 10
            ⟨true, "/data/trace", "", StdMap.empty⟩ ⟨1, .ART, .SAMPLING, "arm", 1000⟩
            ⟨.UNSPECIFIED, ""⟩).1.StartProfilingApp (fun _ => "app") 20
          ⟨true, "/data/trace", "", StdMap.empty⟩ ⟨2, .ART, .SAMPLING, "arm", 1000⟩
          ⟨.UNSPECIFIED, ""⟩).1.StopProfilingAndCleanUp ⟨true, "", StdMap.empty⟩ 0 1 none
        = .done (s3, none) ∧
      s3.app_pids_.find 2 = some "app" ∧
      s3.StopProfilingAndCleanUp ⟨true, "", StdMap.empty⟩ 0 2 none = .assert_failed := by
  refine ⟨{ app_pids_ := ⟨[(2, "app")]⟩,
             last_start_profiling_timestamps_ := ⟨[]⟩,
             last_start_profiling_requests_ := ⟨[]⟩,
             trace_path_ := "",
             files := ⟨[]⟩,
             calls := [.activity_manager_StartProfiling .SAMPLING "app" 1000,
                       .activity_manager_StartProfiling .SAMPLING "app" 1000,
                       .activity_manager_StopProfiling "app" false] }, ?_, ?_, ?_⟩
  · simp [CpuServiceImpl.StopProfilingAndCleanUp, CpuServiceImpl.StartProfilingApp,
      CpuServiceImpl.init, StdMap.empty, StdMap.assign, StdMap.assignIn, StdMap.find,
      StdMap.findIn, StdMap.erase]
    rfl
  · simp [StdMap.find, StdMap.findIn]
  · simp [CpuServiceImpl.StopProfilingAndCleanUp, StdMap.find, StdMap.findIn]

/-- C8: a `StartProfilingApp` that ends with status `FAILURE` leaves `app_pids_`, the
start timestamps and the start requests as they were.  It fails either because the process
lookup gave the empty name, and then no collaborator is called, nothing at all changes and
the error message is "App is not running.", or because the backend's start returned
`false`, and then the error message is the backend's. -/
theorem C8_failed_start_keeps_registry (s : CpuServiceImpl) (GetCmdlineForPid : Int → String)
    (now : Int) (backend : StartResult) (request : CpuProfilingAppStartRequest)
    (response : CpuProfilingAppStartResponse)
    (hfail : (s.StartProfilingApp GetCmdlineForPid now backend request response).2.status
      = .FAILURE) :
    (s.StartProfilingApp GetCmdlineForPid now backend request response).1.app_pids_
      = s.app_pids_ ∧
    (s.StartProfilingApp GetCmdlineForPid now backend request
        response).1.last_start_profiling_timestamps_
      = s.last_start_profiling_timestamps_ ∧
    (s.StartProfilingApp GetCmdlineForPid now backend request
        response).1.last_start_profiling_requests_
      = s.last_start_profiling_requests_ ∧
    (GetCmdlineForPid request.session_pid = "" →
      (s.StartProfilingApp GetCmdlineForPid now backend request response).1 = s ∧
      (s.StartProfilingApp GetCmdlineForPid now backend request response).2.error_message
        = "App is not running.") ∧
    (GetCmdlineForPid request.session_pid ≠ "" →
      backend.success = false ∧
      (s.StartProfilingApp GetCmdlineForPid now backend request response).2.error_message
        = backend.error) := by
  by_cases hempty : GetCmdlineForPid request.session_pid = ""
  · simp [CpuServiceImpl.StartProfilingApp, hempty]
  · by_cases hsucc : backend.success = true
    · simp [CpuServiceImpl.StartProfilingApp, hempty, hsucc] at hfail
    · simp [CpuServiceImpl.StartProfilingApp, hempty, hsucc]

/-- C8 for a pid whose lookup gives the empty name. -/
theorem C8_failed_start_keeps_registry_witness :
    ((CpuServiceImpl.init StdMap.empty).StartProfilingApp (fun _ => "") 10
        ⟨true, "/data/trace", "", StdMap.empty⟩ ⟨7, .SIMPLEPERF, .SAMPLING, "arm", 1000⟩
        ⟨.UNSPECIFIED, ""⟩).2.error_message = "App is not running." :=
  ((C8_failed_start_keeps_registry (CpuServiceImpl.init StdMap.empty) (fun _ => "") 10
      ⟨true, "/data/trace", "", StdMap.empty⟩ ⟨7, .SIMPLEPERF, .SAMPLING, "arm", 1000⟩
      ⟨.UNSPECIFIED, ""⟩ (by decide)).2.2.2.1 rfl).2

/-- C9: if `StartProfilingApp(request)` ends with status `SUCCESS`, the process lookup
having resolved the request's pid to `A` at clock time `now`, then `A` is not empty, the
new state maps the pid to `A`, and a `CheckAppProfilingState` that follows for a pid
resolving to `A` reports `being_profiled = true` with `start_request` equal to `request`
and `start_timestamp` equal to `now`, and changes no state.  Conversely, in any state,
`CheckAppProfilingState` reports `being_profiled = true` only if a start request is
stored for the resolved application. -/
theorem C9_check_reports_started_session (s : CpuServiceImpl)
    (GetCmdlineForPid : Int → String) (now : Int) (backend : StartResult)
    (request : CpuProfilingAppStartRequest) (response : CpuProfilingAppStartResponse)
    (GetCmdlineForPid2 : Int → String) (now2 : Int) (check_request : ProfilingStateRequest)
    (check_response : ProfilingStateResponse)
    (hok : (s.StartProfilingApp GetCmdlineForPid now backend request response).2.status
      = .SUCCESS)
    (hsame : GetCmdlineForPid2 check_request.session_pid
      = GetCmdlineForPid request.session_pid) :
    GetCmdlineForPid request.session_pid ≠ "" ∧
    (s.StartProfilingApp GetCmdlineForPid now backend request response).1.app_pids_.find
        request.session_pid = some (GetCmdlineForPid request.session_pid) ∧
    ((s.StartProfilingApp GetCmdlineForPid now backend request response).1.CheckAppProfilingState
        GetCmdlineForPid2 now2 check_request check_response).2
      = { being_profiled := true, check_timestamp := now2, start_timestamp := now,
          start_request := some request } ∧
    ((s.StartProfilingApp GetCmdlineForPid now backend request response).1.CheckAppProfilingState
        GetCmdlineForPid2 now2 check_request check_response).1
      = (s.StartProfilingApp GetCmdlineForPid now backend request response).1 ∧
    (∀ (s0 : CpuServiceImpl) (lookup : Int → String) (now0 : Int)
        (request0 : ProfilingStateRequest) (response0 : ProfilingStateResponse),
      (s0.CheckAppProfilingState lookup now0 request0 response0).2.being_profiled = true →
      ∃ stored, s0.last_start_profiling_requests_.find (lookup request0.session_pid)
        = some stored) := by
  have hconv : ∀ (s0 : CpuServiceImpl) (lookup : Int → String) (now0 : Int)
      (request0 : ProfilingStateRequest) (response0 : ProfilingStateResponse),
      (s0.CheckAppProfilingState lookup now0 request0 response0).2.being_profiled = true →
      ∃ stored, s0.last_start_profiling_requests_.find (lookup request0.session_pid)
        = some stored := by
    intro s0 lookup now0 request0 response0 h
    cases hfind : s0.last_start_profiling_requests_.find (lookup request0.session_pid) with
    | none => simp [CpuServiceImpl.CheckAppProfilingState, hfind] at h
    | some stored => exact ⟨stored, rfl⟩
  by_cases hempty : GetCmdlineForPid request.session_pid = ""
  · simp [CpuServiceImpl.StartProfilingApp, hempty] at hok
  · by_cases hsucc : backend.success = true
    · have hr : (s.StartProfilingApp GetCmdlineForPid now backend request
          response).1.last_start_profiling_requests_.find
            (GetCmdlineForPid2 check_request.session_pid) = some request := by
        rw [hsame]
        simp only [CpuServiceImpl.StartProfilingApp, hempty, if_false, hsucc, if_true]
        exact StdMap.find_assign_self _ _ _
      have ht : (s.StartProfilingApp GetCmdlineForPid now backend request
          response).1.last_start_profiling_timestamps_.find
            (GetCmdlineForPid2 check_request.session_pid) = some now := by
        rw [hsame]
        simp only [CpuServiceImpl.StartProfilingApp, hempty, if_false, hsucc, if_true]
        exact StdMap.find_assign_self _ _ _
      refine ⟨hempty, ?_, ?_, ?_, hconv⟩
      · simp only [CpuServiceImpl.StartProfilingApp, hempty, if_false, hsucc, if_true]
        exact StdMap.find_assign_self _ _ _
      · simp only [CpuServiceImpl.CheckAppProfilingState, hr, Option.isSome_some, if_true,
          StdMap.index_of_find _ _ _ hr, StdMap.index_of_find _ _ _ ht]
      · simp only [CpuServiceImpl.CheckAppProfilingState, hr, Option.isSome_some, if_true,
          StdMap.index_of_find _ _ _ hr, StdMap.index_of_find _ _ _ ht]
    · simp [CpuServiceImpl.StartProfilingApp, hempty, hsucc] at hok

/-- C9 from the empty registry: pid 7 resolves to `"app"`, the start succeeds at time 10,
and a check for pid 8, which resolves to `"app"` too, reports the session. -/
theorem C9_check_reports_started_session_witness :
    (((CpuServiceImpl.init StdMap.empty).StartProfilingApp (fun _ => "app") 10
        ⟨true, "/data/trace", "", StdMap.empty⟩ ⟨7, .SIMPLEPERF, .SAMPLING, "arm", 1000⟩
        ⟨.UNSPECIFIED, ""⟩).1.CheckAppProfilingState (fun _ => "app") 11 ⟨8⟩
        ⟨false, 0, 0, none⟩).2
      = { being_profiled := true, check_timestamp := 11, start_timestamp := 10,
          start_request := some ⟨7, .SIMPLEPERF, .SAMPLING, "arm", 1000⟩ } :=
  (C9_check_reports_started_session (CpuServiceImpl.init StdMap.empty) (fun _ => "app") 10
    ⟨true, "/data/trace", "", StdMap.empty⟩ ⟨7, .SIMPLEPERF, .SAMPLING, "arm", 1000⟩
    ⟨.UNSPECIFIED, ""⟩ (fun _ => "app") 11 ⟨8⟩ ⟨false, 0, 0, none⟩ (by decide) rfl).2.2.1

/-- C10: when `pid` has no entry in `app_pids_`, `StopProfilingAndCleanUp(pid, response)`
returns with the response untouched, calls no collaborator, leaves the three maps as they
were and ends with an empty `trace_path_`: a non-empty path has its file deleted (the other
files stay) and is cleared, and with an empty path nothing at all changes. -/
theorem C10_stop_untracked_pid (s : CpuServiceImpl) (backend : StopResult) (rand : Nat)
    (pid : Int) (response : Option CpuProfilingAppStopResponse)
    (hpid : s.app_pids_.find pid = none) :
    ∃ s1, s.StopProfilingAndCleanUp backend rand pid response = .done (s1, response) ∧
      s1.calls = s.calls ∧
      s1.app_pids_ = s.app_pids_ ∧
      s1.last_start_profiling_timestamps_ = s.last_start_profiling_timestamps_ ∧
      s1.last_start_profiling_requests_ = s.last_start_profiling_requests_ ∧
      s1.trace_path_ = "" ∧
      (s.trace_path_ ≠ "" →
        s1.files = remove s.files s.trace_path_ ∧ s1.files.find s.trace_path_ = none ∧
        ∀ path, path ≠ s.trace_path_ → s1.files.find path = s.files.find path) ∧
      (s.trace_path_ = "" → s1 = s) := by
  by_cases hpath : s.trace_path_ = ""
  · refine ⟨s, by simp [CpuServiceImpl.StopProfilingAndCleanUp, hpid, hpath],
      rfl, rfl, rfl, rfl, hpath, fun h => absurd hpath h, fun _ => rfl⟩
  · refine ⟨{ s with files := remove s.files s.trace_path_, trace_path_ := "" },
      by simp [CpuServiceImpl.StopProfilingAndCleanUp, hpid, hpath],
      rfl, rfl, rfl, rfl, rfl, fun _ => ⟨rfl, ?_, ?_⟩, fun h => absurd h hpath⟩
    · exact StdMap.find_erase_self _ _
    · intro path hne
      exact StdMap.find_erase_other _ _ _ hne

/-- C10 on an empty registry with a stale trace staged at `"/data/trace"`: the file is
deleted, another file stays, and the path is cleared. -/
theorem C10_stop_untracked_pid_witness :
    ∃ s1,
      CpuServiceImpl.StopProfilingAndCleanUp
          { app_pids_ := ⟨[]⟩,
            last_start_profiling_timestamps_ := ⟨[]⟩,
            last_start_profiling_requests_ := ⟨[]⟩,
            trace_path_ := "/data/trace",
            files := ⟨[("/data/other", "x"), ("/data/trace", "bytes")]⟩,
            calls := [] }
          ⟨true, "", ⟨[]⟩⟩ 0 7 none = .done (s1, none) ∧
      s1.files = ⟨[("/data/other", "x")]⟩ ∧ s1.trace_path_ = "" := by
  obtain ⟨s1, hrun, -, -, -, -, hpath, hfiles, -⟩ :=
    C10_stop_untracked_pid
      { app_pids_ := ⟨[]⟩,
        last_start_profiling_timestamps_ := ⟨[]⟩,
        last_start_profiling_requests_ := ⟨[]⟩,
        trace_path_ := "/data/trace",
        files := ⟨[("/data/other", "x"), ("/data/trace", "bytes")]⟩,
        calls := [] }
      ⟨true, "", ⟨[]⟩⟩ 0 7 none rfl
  exact ⟨s1, hrun, (hfiles (by decide)).1.trans (by decide), hpath⟩

/-! ## Lemmas on the profiling calls -/

namespace CpuServiceImpl

/-- `StopProfilingAndCleanUp` on a pid that is tracked with a stored start request:
the call returns, makes one backend call and erases the session. -/
theorem stop_of_tracked (s : CpuServiceImpl) (backend : StopResult) (rand : Nat) (pid : Int)
    (response : Option CpuProfilingAppStopResponse) (app : String)
    (last_request : CpuProfilingAppStartRequest)
    (hpid : s.app_pids_.find pid = some app)
    (hreq : s.last_start_profiling_requests_.find app = some last_request) :
    ∃ s1 response1 stop,
      s.StopProfilingAndCleanUp backend rand pid response = .done (s1, response1) ∧
      s1.calls = s.calls ++ [stop] ∧
      (last_request.profiler_type = .SIMPLEPERF →
        stop = Call.simpleperf_StopProfiling app response.isSome) ∧
      (last_request.profiler_type = .ATRACE →
        stop = Call.atrace_StopProfiling app response.isSome) ∧
      (last_request.profiler_type = .ART →
        stop = Call.activity_manager_StopProfiling app response.isSome) ∧
      s1.files = remove backend.files s.trace_path_ ∧
      s1.trace_path_ = "" ∧
      s1.last_start_profiling_timestamps_ = s.last_start_profiling_timestamps_.erase app ∧
      s1.last_start_profiling_requests_ = s.last_start_profiling_requests_.erase app ∧
      s1.app_pids_ = s.app_pids_.erase pid := by
  cases hty : last_request.profiler_type <;>
    exact ⟨_, _, _, by simp only [StopProfilingAndCleanUp, hpid, hreq, hty]; rfl,
      rfl, by simp, by simp, by simp, rfl, rfl, rfl, rfl, rfl⟩

/-- `StopProfilingAndCleanUp` on a pid that is not tracked returns and calls no
collaborator. -/
theorem stop_of_untracked (s : CpuServiceImpl) (backend : StopResult) (rand : Nat) (pid : Int)
    (response : Option CpuProfilingAppStopResponse) (hpid : s.app_pids_.find pid = none) :
    ∃ s1, s.StopProfilingAndCleanUp backend rand pid response = .done (s1, response) ∧
      s1.calls = s.calls ∧
      s1.trace_path_ = "" ∧
      s1.last_start_profiling_timestamps_ = s.last_start_profiling_timestamps_ ∧
      s1.last_start_profiling_requests_ = s.last_start_profiling_requests_ ∧
      s1.app_pids_ = s.app_pids_ := by
  by_cases hpath : s.trace_path_ = ""
  · exact ⟨s, by simp [StopProfilingAndCleanUp, hpid, hpath], rfl, hpath, rfl, rfl, rfl⟩
  · exact ⟨{ s with files := remove s.files s.trace_path_, trace_path_ := "" },
      by simp [StopProfilingAndCleanUp, hpid, hpath], rfl, rfl, rfl, rfl, rfl⟩

/-- `StopMonitoringApp` is `StopProfilingAndCleanUp(pid, nullptr)` run after the calls to
the cache and the samplers. -/
theorem stopMonitoring_eq (s : CpuServiceImpl) (usage_status thread_status : Status)
    (backend : StopResult) (rand : Nat) (request : CpuStopRequest)
    (response : CpuStopResponse) :
    s.StopMonitoringApp usage_status thread_status backend rand request response
      = match ({ s with calls := s.calls ++
                  ([Call.cache_DeallocateAppCache request.session_pid,
                    Call.usage_sampler_RemoveProcess request.session_pid] ++
                   (if usage_status = .SUCCESS then
                      [Call.thread_monitor_RemoveProcess request.session_pid]
                    else [])) } : CpuServiceImpl).StopProfilingAndCleanUp backend rand
                request.session_pid none with
        | .done r =>
          .done (r.1, { response with
            status := if usage_status = .SUCCESS then thread_status else usage_status })
        | .blocked => .blocked
        | .assert_failed => .assert_failed := by
  by_cases hu : usage_status = .SUCCESS
  · simp [StopMonitoringApp, hu]
  · simp [StopMonitoringApp, hu]

end CpuServiceImpl

/-! ## Properties of the monitoring and profiling calls -/

/-- C11: when `pid` has an active profiling session (an entry in `app_pids_` for an
application with a stored start request), `StopMonitoringApp(pid)` returns, whatever the
usage sampler and the thread monitor answer, and after the calls to the cache and the
samplers makes one backend call: the `StopProfiling` of the backend named by the stored
request, with `need_trace = false`.  The staged file is deleted, `trace_path_` is empty and
the timestamp, the start request and the pid entry of the session are erased. -/
theorem C11_stop_monitoring_ends_session (s : CpuServiceImpl)
    (usage_status thread_status : Status) (backend : StopResult) (rand : Nat)
    (request : CpuStopRequest) (response : CpuStopResponse) (app : String)
    (last_request : CpuProfilingAppStartRequest)
    (hpid : s.app_pids_.find request.session_pid = some app)
    (hreq : s.last_start_profiling_requests_.find app = some last_request) :
    ∃ s1 response1 stop,
      s.StopMonitoringApp usage_status thread_status backend rand request response
        = .done (s1, response1) ∧
      s1.calls = s.calls ++
        ([Call.cache_DeallocateAppCache request.session_pid,
          Call.usage_sampler_RemoveProcess request.session_pid] ++
         (if usage_status = .SUCCESS then
            [Call.thread_monitor_RemoveProcess request.session_pid]
          else [])) ++ [stop] ∧
      (last_request.profiler_type = .SIMPLEPERF →
        stop = Call.simpleperf_StopProfiling app false) ∧
      (last_request.profiler_type = .ATRACE →
        stop = Call.atrace_StopProfiling app false) ∧
      (last_request.profiler_type = .ART →
        stop = Call.activity_manager_StopProfiling app false) ∧
      s1.files = remove backend.files s.trace_path_ ∧
      s1.files.find s.trace_path_ = none ∧
      s1.trace_path_ = "" ∧
      s1.last_start_profiling_timestamps_.find app = none ∧
      s1.last_start_profiling_requests_.find app = none ∧
      s1.app_pids_.find request.session_pid = none := by
  obtain ⟨s1, r1, stop, hrun, hcalls, h1, h2, h3, hfiles, hpath, hts, hrq, hpids⟩ :=
    CpuServiceImpl.stop_of_tracked
      ({ s with calls := s.calls ++
          ([Call.cache_DeallocateAppCache request.session_pid,
            Call.usage_sampler_RemoveProcess request.session_pid] ++
           (if usage_status = .SUCCESS then
              [Call.thread_monitor_RemoveProcess request.session_pid]
            else [])) } : CpuServiceImpl)
      backend rand request.session_pid none app last_request hpid hreq
  refine ⟨s1, _, stop, by rw [CpuServiceImpl.stopMonitoring_eq, hrun], hcalls,
    h1, h2, h3, hfiles, ?_, hpath, ?_, ?_, ?_⟩
  · rw [hfiles]; exact StdMap.find_erase_self _ _
  · rw [hts]; exact StdMap.find_erase_self _ _
  · rw [hrq]; exact StdMap.find_erase_self _ _
  · rw [hpids]; exact StdMap.find_erase_self _ _

/-- C11 on a registry that tracks pid 7 as `"app"`, started with simpleperf, while the
usage sampler reports a failure. -/
theorem C11_stop_monitoring_ends_session_witness :
    ∃ s1 response1,
      CpuServiceImpl.StopMonitoringApp
          { app_pids_ := ⟨[(7, "app")]⟩,
            last_start_profiling_timestamps_ := ⟨[("app", 5)]⟩,
            last_start_profiling_requests_ :=
              ⟨[("app", ⟨7, .SIMPLEPERF, .SAMPLING, "arm", 1000⟩)]⟩,
            trace_path_ := "/data/trace",
            files := ⟨[("/data/trace", "bytes")]⟩,
            calls := [] }
          .FAILURE .SUCCESS ⟨true, "", ⟨[("/data/trace", "bytes")]⟩⟩ 0 ⟨7⟩ ⟨.UNSPECIFIED⟩
        = .done (s1, response1) ∧
      s1.calls = [Call.cache_DeallocateAppCache 7, Call.usage_sampler_RemoveProcess 7,
        Call.simpleperf_StopProfiling "app" false] ∧
      s1.files.find "/data/trace" = none ∧
      s1.trace_path_ = "" ∧
      s1.last_start_profiling_requests_.find "app" = none ∧
      s1.app_pids_.find 7 = none := by
  obtain ⟨s1, r1, stop, hrun, hcalls, h1, -, -, -, hfile, hpath, -, hrq, hpids⟩ :=
    C11_stop_monitoring_ends_session
      { app_pids_ := ⟨[(7, "app")]⟩,
        last_start_profiling_timestamps_ := ⟨[("app", 5)]⟩,
        last_start_profiling_requests_ :=
          ⟨[("app", ⟨7, .SIMPLEPERF, .SAMPLING, "arm", 1000⟩)]⟩,
        trace_path_ := "/data/trace",
        files := ⟨[("/data/trace", "bytes")]⟩,
        calls := [] }
      .FAILURE .SUCCESS ⟨true, "", ⟨[("/data/trace", "bytes")]⟩⟩ 0 ⟨7⟩ ⟨.UNSPECIFIED⟩
      "app" ⟨7, .SIMPLEPERF, .SAMPLING, "arm", 1000⟩ (by decide) (by decide)
  refine ⟨s1, r1, hrun, ?_, hfile, hpath, hrq, hpids⟩
  rw [hcalls, h1 rfl]
  rfl

/-- C12: after a `StartProfilingApp` that ended with status `SUCCESS` and left the path
`P` in `trace_path_`, a `StopProfilingApp` for the same pid returns and the file at `P` no
longer exists.  If the backend's stop succeeds the response has status `SUCCESS` and its
trace is what `FileReader::Read` reads at `P` from the files the backend's stop left, that is
the content of the file at `P` when there is one.  If the backend's stop fails the response
has status `FAILURE` with the backend's error message and its trace and trace id are not
written. -/
theorem C12_stop_returns_staged_trace (s : CpuServiceImpl) (GetCmdlineForPid : Int → String)
    (now : Int) (started : StartResult) (request : CpuProfilingAppStartRequest)
    (start_response : CpuProfilingAppStartResponse) (stopped : StopResult) (rand : Nat)
    (stop_request : CpuProfilingAppStopRequest) (stop_response : CpuProfilingAppStopResponse)
    (hok : (s.StartProfilingApp GetCmdlineForPid now started request start_response).2.status
      = .SUCCESS)
    (hsame : stop_request.session_pid = request.session_pid) :
    (s.StartProfilingApp GetCmdlineForPid now started request start_response).1.trace_path_
      = started.trace_path ∧
    ∃ s2 response2,
      (s.StartProfilingApp GetCmdlineForPid now started request start_response).1.StopProfilingApp
          stopped rand stop_request stop_response = .done (s2, some response2) ∧
      s2.files.find started.trace_path = none ∧
      (stopped.success = true →
        response2.status = .SUCCESS ∧
        response2.trace = FileReader_Read stopped.files started.trace_path ∧
        ∀ content, stopped.files.find started.trace_path = some content →
          response2.trace = content) ∧
      (stopped.success = false →
        response2.status = .FAILURE ∧
        response2.error_message = stopped.error ∧
        response2.trace = stop_response.trace ∧
        response2.trace_id = stop_response.trace_id) := by
  by_cases hempty : GetCmdlineForPid request.session_pid = ""
  · simp [CpuServiceImpl.StartProfilingApp, hempty] at hok
  · by_cases hsucc : started.success = true
    · have hpath : (s.StartProfilingApp GetCmdlineForPid now started request
          start_response).1.trace_path_ = started.trace_path := by
        simp only [CpuServiceImpl.StartProfilingApp, hempty, if_false, hsucc, if_true]
      have hp : (s.StartProfilingApp GetCmdlineForPid now started request
          start_response).1.app_pids_.find stop_request.session_pid
            = some (GetCmdlineForPid request.session_pid) := by
        rw [hsame]
        simp only [CpuServiceImpl.StartProfilingApp, hempty, if_false, hsucc, if_true]
        exact StdMap.find_assign_self _ _ _
      have hr : (s.StartProfilingApp GetCmdlineForPid now started request
          start_response).1.last_start_profiling_requests_.find
            (GetCmdlineForPid request.session_pid) = some request := by
        simp only [CpuServiceImpl.StartProfilingApp, hempty, if_false, hsucc, if_true]
        exact StdMap.find_assign_self _ _ _
      refine ⟨hpath, ?_⟩
      cases hstop : stopped.success with
      | true =>
        refine ⟨_, _, by
          simp only [CpuServiceImpl.StopProfilingApp, CpuServiceImpl.StopProfilingAndCleanUp,
            hp, hr, hstop, if_true]; rfl, ?_, ?_, ?_⟩
        · show (remove stopped.files _).find started.trace_path = none
          rw [hpath]
          exact StdMap.find_erase_self _ _
        · intro _
          refine ⟨rfl, by rw [hpath], ?_⟩
          intro content hc
          show FileReader_Read stopped.files _ = content
          rw [hpath]
          simp [FileReader_Read, hc]
        · intro h; cases h
      | false =>
        refine ⟨_, _, by
          simp only [CpuServiceImpl.StopProfilingApp, CpuServiceImpl.StopProfilingAndCleanUp,
            hp, hr, hstop, Bool.false_eq_true, if_false]; rfl, ?_, ?_, ?_⟩
        · show (remove stopped.files _).find started.trace_path = none
          rw [hpath]
          exact StdMap.find_erase_self _ _
        · intro h; cases h
        · intro _
          exact ⟨rfl, rfl, rfl, rfl⟩
    · simp [CpuServiceImpl.StartProfilingApp, hempty, hsucc] at hok

/-- C12 for pid 7: the start stages `"/data/trace"`, the backend's stop writes `"bytes"`
there and succeeds; the response carries `"bytes"`. -/
theorem C12_stop_returns_staged_trace_witness :
    ∃ s2 response2,
      ((CpuServiceImpl.init StdMap.empty).StartProfilingApp (fun _ => "app") 10
          ⟨true, "/data/trace", "", StdMap.empty⟩ ⟨7, .ATRACE, .SAMPLING, "arm", 1000⟩
          ⟨.UNSPECIFIED, ""⟩).1.StopProfilingApp
          ⟨true, "", ⟨[("/data/trace", "bytes")]⟩⟩ 3 ⟨7⟩ ⟨.UNSPECIFIED, "", "", 0⟩
        = .done (s2, some response2) ∧
      s2.files.find "/data/trace" = none ∧
      response2.status = .SUCCESS ∧
      response2.trace = "bytes" := by
  obtain ⟨-, s2, response2, hrun, hfile, hsucc, -⟩ :=
    C12_stop_returns_staged_trace (CpuServiceImpl.init StdMap.empty) (fun _ => "app") 10
      ⟨true, "/data/trace", "", StdMap.empty⟩ ⟨7, .ATRACE, .SAMPLING, "arm", 1000⟩
      ⟨.UNSPECIFIED, ""⟩ ⟨true, "", ⟨[("/data/trace", "bytes")]⟩⟩ 3 ⟨7⟩
      ⟨.UNSPECIFIED, "", "", 0⟩ (by decide) rfl
  exact ⟨s2, response2, hrun, hfile, (hsucc rfl).1, (hsucc rfl).2.2 "bytes" (by decide)⟩

/-- C14: `GetThreads` sets the initial snapshot of the response to the cache's snapshot
when that snapshot names at least one thread; otherwise to the snapshot of the first sample
when there is a sample, whether or not that snapshot names a thread; otherwise it leaves the
initial snapshot as it was (unset, for a response that had none). -/
theorem C14_initial_snapshot (threads_response : ThreadSampleResponse)
    (response : GetThreadsResponse) :
    (threads_response.snapshot.threads ≠ [] →
      (CpuServiceImpl.GetThreads threads_response response).initial_snapshot
        = some threads_response.snapshot) ∧
    (∀ front rest, threads_response.snapshot.threads = [] →
      threads_response.activity_samples = front :: rest →
      (CpuServiceImpl.GetThreads threads_response response).initial_snapshot
        = some front.snapshot) ∧
    (threads_response.snapshot.threads = [] → threads_response.activity_samples = [] →
      (CpuServiceImpl.GetThreads threads_response response).initial_snapshot
        = response.initial_snapshot) := by
  refine ⟨?_, ?_, ?_⟩
  · intro h
    cases hth : threads_response.snapshot.threads with
    | nil => exact absurd hth h
    | cons t ts => simp [CpuServiceImpl.GetThreads, hth]
  · intro front rest h hs
    simp [CpuServiceImpl.GetThreads, h, hs]
  · intro h hs
    simp [CpuServiceImpl.GetThreads, h, hs]

/-- C14 with a cache snapshot that names no thread and one sample whose snapshot names no
thread either: the sample's snapshot is the initial snapshot. -/
theorem C14_initial_snapshot_witness :
    (CpuServiceImpl.GetThreads ⟨⟨[], 1⟩, [⟨⟨[], 2⟩, []⟩]⟩ ⟨none, []⟩).initial_snapshot
      = some ⟨[], 2⟩ :=
  (C14_initial_snapshot ⟨⟨[], 1⟩, [⟨⟨[], 2⟩, []⟩]⟩ ⟨none, []⟩).2.1 ⟨⟨[], 2⟩, []⟩ [] rfl rfl

/-- C20: on a queue constructed with `max_length = C > 0`, every sequence of
Push/Pop/Drain/Finish calls returns (no assertion fails), and in the state reached a
`Push` does not fail its assertion: a buffer with at least `max_length_` elements has
exactly `max_length_` of them, and a `Push` into such a buffer of an unfinished queue drops
one element, the oldest, and leaves exactly `C` elements. -/
theorem C20_push_assertion_holds {T : Type} (C : Int) (hC : 0 < C) (ops : List (QueueOp T))
    (v : T) :
    ∃ q0 q : ProducerConsumerQueue T,
      ProducerConsumerQueue.create C = .done q0 ∧ q0.run ops = .done q ∧
      q.max_length_ = C ∧
      (q.max_length_ ≤ (q.inner_queue_.length : Int) →
        (q.inner_queue_.length : Int) = q.max_length_) ∧
      q.Push v ≠ .assert_failed ∧
      (q.is_finished = false → q.max_length_ ≤ (q.inner_queue_.length : Int) →
        ∃ oldest rest, q.inner_queue_ = oldest :: rest ∧
          q.Push v = .done (true, { q with inner_queue_ := rest ++ [v] }) ∧
          ((rest ++ [v]).length : Int) = C) := by
  have hb : ProducerConsumerQueue.Bounded (⟨C, false, []⟩ : ProducerConsumerQueue T) := by
    intro _
    show ((0 : Nat) : Int) ≤ C
    omega
  obtain ⟨q, hrun, hbq, hmq⟩ := ProducerConsumerQueue.run_bounded ops _ hb
  have hmq1 : q.max_length_ = C := hmq
  have hle : (q.inner_queue_.length : Int) ≤ q.max_length_ := hbq (by omega)
  refine ⟨⟨C, false, []⟩, q, by simp [ProducerConsumerQueue.create, hC], hrun, hmq1,
    fun h => le_antisymm hle h, ?_, ?_⟩
  · by_cases hf : q.is_finished = true
    · simp [ProducerConsumerQueue.Push, hf]
    · by_cases hfull : 0 < q.max_length_ ∧ q.max_length_ ≤ (q.inner_queue_.length : Int)
      · have hlen : (q.inner_queue_.length : Int) = q.max_length_ := le_antisymm hle hfull.2
        simp [ProducerConsumerQueue.Push, hf, hfull, hlen]
      · simp [ProducerConsumerQueue.Push, hf, hfull]
  · intro hf hge
    have hlen : (q.inner_queue_.length : Int) = q.max_length_ := le_antisymm hle hge
    have hfull : 0 < q.max_length_ ∧ q.max_length_ ≤ (q.inner_queue_.length : Int) :=
      ⟨by omega, hge⟩
    cases hq : q.inner_queue_ with
    | nil => rw [hq] at hlen; simp at hlen; omega
    | cons oldest rest =>
      refine ⟨oldest, rest, rfl, ?_, ?_⟩
      · have hfull2 := hfull
        have hlen2 := hlen
        rw [hq] at hfull2 hlen2
        simp only [ProducerConsumerQueue.Push, hf, Bool.false_eq_true, if_false, hq,
          if_pos hfull2, if_pos hlen2, List.tail_cons]
      · rw [hq] at hlen
        simp only [List.length_cons, List.length_append, List.length_singleton,
          List.length_nil] at hlen ⊢
        omega

/-- C20 at capacity 2 after pushes 1, 2, 3: the next push finds a full buffer `[2, 3]`. -/
theorem C20_push_assertion_holds_witness :
    ∃ q0 q : ProducerConsumerQueue Nat,
      ProducerConsumerQueue.create 2 = .done q0 ∧
      q0.run [.push 1, .push 2, .push 3] = .done q ∧
      q.Push 4 ≠ .assert_failed := by
  obtain ⟨q0, q, h0, hrun, -, -, hpush, -⟩ :=
    C20_push_assertion_holds 2 (by decide) [.push 1, .push 2, .push 3] 4
  exact ⟨q0, q, h0, hrun, hpush⟩

/-! ## Lemmas on sequences of calls -/

namespace CpuServiceImpl

/-- What a `StopProfilingAndCleanUp` that returns does to the registry maps: nothing for
a pid that is not tracked, and for a tracked pid it erases the session of its
application, whose start request was stored. -/
theorem stop_done_cases (s s1 : CpuServiceImpl) (backend : StopResult) (rand : Nat)
    (pid : Int) (response response1 : Option CpuProfilingAppStopResponse)
    (h : s.StopProfilingAndCleanUp backend rand pid response = .done (s1, response1)) :
    (s.app_pids_.find pid = none ∧
      s1.last_start_profiling_timestamps_ = s.last_start_profiling_timestamps_ ∧
      s1.last_start_profiling_requests_ = s.last_start_profiling_requests_ ∧
      s1.app_pids_ = s.app_pids_) ∨
    (∃ app stored, s.app_pids_.find pid = some app ∧
      s.last_start_profiling_requests_.find app = some stored ∧
      s1.last_start_profiling_timestamps_ = s.last_start_profiling_timestamps_.erase app ∧
      s1.last_start_profiling_requests_ = s.last_start_profiling_requests_.erase app ∧
      s1.app_pids_ = s.app_pids_.erase pid) := by
  cases hfind : s.app_pids_.find pid with
  | none =>
    obtain ⟨s2, hrun, -, -, hts, hrq, hpids⟩ :=
      stop_of_untracked s backend rand pid response hfind
    rw [hrun] at h
    simp only [Outcome.done.injEq, Prod.mk.injEq] at h
    obtain ⟨rfl, -⟩ := h
    exact Or.inl ⟨rfl, hts, hrq, hpids⟩
  | some app =>
    cases hreq : s.last_start_profiling_requests_.find app with
    | none => simp [StopProfilingAndCleanUp, hfind, hreq] at h
    | some stored =>
      obtain ⟨s2, r2, stop, hrun, -, -, -, -, -, -, hts, hrq, hpids⟩ :=
        stop_of_tracked s backend rand pid response app stored hfind hreq
      rw [hrun] at h
      simp only [Outcome.done.injEq, Prod.mk.injEq] at h
      obtain ⟨rfl, -⟩ := h
      exact Or.inr ⟨app, stored, rfl, hreq, hts, hrq, hpids⟩

/-- A `StopMonitoringApp` that returns changes the registry maps as the
`StopProfilingAndCleanUp` it ends with. -/
theorem stopMonitoring_done_cases (s s1 : CpuServiceImpl)
    (usage_status thread_status : Status) (backend : StopResult) (rand : Nat)
    (request : CpuStopRequest) (response response1 : CpuStopResponse)
    (h : s.StopMonitoringApp usage_status thread_status backend rand request response
      = .done (s1, response1)) :
    (s.app_pids_.find request.session_pid = none ∧
      s1.last_start_profiling_timestamps_ = s.last_start_profiling_timestamps_ ∧
      s1.last_start_profiling_requests_ = s.last_start_profiling_requests_ ∧
      s1.app_pids_ = s.app_pids_) ∨
    (∃ app stored, s.app_pids_.find request.session_pid = some app ∧
      s.last_start_profiling_requests_.find app = some stored ∧
      s1.last_start_profiling_timestamps_ = s.last_start_profiling_timestamps_.erase app ∧
      s1.last_start_profiling_requests_ = s.last_start_profiling_requests_.erase app ∧
      s1.app_pids_ = s.app_pids_.erase request.session_pid) := by
  rw [stopMonitoring_eq] at h
  split at h
  · rename_i r hr
    simp only [Outcome.done.injEq, Prod.mk.injEq] at h
    obtain ⟨rfl, -⟩ := h
    exact stop_done_cases
      ({ s with calls := s.calls ++
          ([Call.cache_DeallocateAppCache request.session_pid,
            Call.usage_sampler_RemoveProcess request.session_pid] ++
           (if usage_status = .SUCCESS then
              [Call.thread_monitor_RemoveProcess request.session_pid]
            else [])) } : CpuServiceImpl)
      r.1 backend rand request.session_pid none r.2 hr
  · simp at h
  · simp at h

/-- When the timestamps and the start requests have the same keys,
`CheckAppProfilingState` changes no state. -/
theorem check_keeps_state (s : CpuServiceImpl) (GetCmdlineForPid : Int → String) (now : Int)
    (request : ProfilingStateRequest) (response : ProfilingStateResponse)
    (hkeys : ∀ app, (s.last_start_profiling_timestamps_.find app).isSome
      = (s.last_start_profiling_requests_.find app).isSome) :
    (s.CheckAppProfilingState GetCmdlineForPid now request response).1 = s := by
  cases hr : s.last_start_profiling_requests_.find (GetCmdlineForPid request.session_pid) with
  | none => simp [CheckAppProfilingState, hr]
  | some stored =>
    have hk := hkeys (GetCmdlineForPid request.session_pid)
    rw [hr] at hk
    cases ht : s.last_start_profiling_timestamps_.find
        (GetCmdlineForPid request.session_pid) with
    | none => rw [ht] at hk; simp at hk
    | some t =>
      simp only [CheckAppProfilingState, hr, Option.isSome_some, if_true,
        StdMap.index_of_find _ _ _ hr, StdMap.index_of_find _ _ _ ht]

/-- `CheckAppProfilingState` never changes the start requests. -/
theorem check_keeps_requests (s : CpuServiceImpl) (GetCmdlineForPid : Int → String)
    (now : Int) (request : ProfilingStateRequest) (response : ProfilingStateResponse) :
    (s.CheckAppProfilingState GetCmdlineForPid now request
        response).1.last_start_profiling_requests_
      = s.last_start_profiling_requests_ := by
  cases hr : s.last_start_profiling_requests_.find (GetCmdlineForPid request.session_pid) with
  | none => simp [CheckAppProfilingState, hr]
  | some stored =>
    simp only [CheckAppProfilingState, hr, Option.isSome_some, if_true,
      StdMap.index_of_find _ _ _ hr]

/-- Erasing the same key from two maps with the same keys leaves maps with the same
keys. -/
theorem erase_same_keys {V W : Type} (m : StdMap String V) (n : StdMap String W)
    (app : String) (hk : ∀ a, (m.find a).isSome = (n.find a).isSome) (a : String) :
    ((m.erase app).find a).isSome = ((n.erase app).find a).isSome := by
  by_cases ha : a = app
  · subst ha
    rw [StdMap.find_erase_self, StdMap.find_erase_self]
    rfl
  · rw [StdMap.find_erase_other _ _ _ ha, StdMap.find_erase_other _ _ _ ha]
    exact hk a

/-- Every call keeps the two invariants: the timestamps and the start requests have the
same keys, and the empty name is not a key. -/
theorem step_keys (s s1 : CpuServiceImpl) (op : ServiceOp) (h : s.step op = .done s1)
    (hk : ∀ app, (s.last_start_profiling_timestamps_.find app).isSome
      = (s.last_start_profiling_requests_.find app).isSome)
    (he : s.last_start_profiling_requests_.find "" = none) :
    (∀ app, (s1.last_start_profiling_timestamps_.find app).isSome
      = (s1.last_start_profiling_requests_.find app).isSome) ∧
    s1.last_start_profiling_requests_.find "" = none := by
  cases op with
  | StartProfilingApp GetCmdlineForPid now backend request response =>
    simp only [step, Outcome.done.injEq] at h
    subst h
    by_cases hempty : GetCmdlineForPid request.session_pid = ""
    · simp only [StartProfilingApp, hempty, if_true]
      exact ⟨hk, he⟩
    · by_cases hsucc : backend.success = true
      · simp only [StartProfilingApp, hempty, if_false, hsucc, if_true]
        constructor
        · intro app
          by_cases ha : app = GetCmdlineForPid request.session_pid
          · subst ha
            rw [StdMap.find_assign_self, StdMap.find_assign_self]
            rfl
          · rw [StdMap.find_assign_other _ _ _ _ ha, StdMap.find_assign_other _ _ _ _ ha]
            exact hk app
        · rw [StdMap.find_assign_other _ _ _ _ (Ne.symm hempty)]
          exact he
      · simp only [StartProfilingApp, hempty, if_false, hsucc]
        exact ⟨hk, he⟩
  | StopProfilingApp backend rand request response =>
    simp only [step] at h
    split at h
    · rename_i r hr
      simp only [Outcome.done.injEq] at h
      subst h
      rcases stop_done_cases s r.1 backend rand request.session_pid (some response) r.2 hr with
        ⟨-, hts, hrq, -⟩ | ⟨app, stored, -, -, hts, hrq, -⟩
      · rw [hts, hrq]; exact ⟨hk, he⟩
      · rw [hts, hrq]
        refine ⟨erase_same_keys _ _ app hk, ?_⟩
        by_cases ha : "" = app
        · subst ha; exact StdMap.find_erase_self _ _
        · rw [StdMap.find_erase_other _ _ _ ha]; exact he
    · simp at h
    · simp at h
  | StopMonitoringApp usage_status thread_status backend rand request response =>
    simp only [step] at h
    split at h
    · rename_i r hr
      simp only [Outcome.done.injEq] at h
      subst h
      rcases stopMonitoring_done_cases s r.1 usage_status thread_status backend rand request
          response r.2 hr with
        ⟨-, hts, hrq, -⟩ | ⟨app, stored, -, -, hts, hrq, -⟩
      · rw [hts, hrq]; exact ⟨hk, he⟩
      · rw [hts, hrq]
        refine ⟨erase_same_keys _ _ app hk, ?_⟩
        by_cases ha : "" = app
        · subst ha; exact StdMap.find_erase_self _ _
        · rw [StdMap.find_erase_other _ _ _ ha]; exact he
    · simp at h
    · simp at h
  | CheckAppProfilingState GetCmdlineForPid now request response =>
    simp only [step, Outcome.done.injEq] at h
    subst h
    rw [check_keeps_state s GetCmdlineForPid now request response hk]
    exact ⟨hk, he⟩

/-- The two invariants hold after every sequence of calls that returns. -/
theorem run_keys (ops : List ServiceOp) :
    ∀ s s1 : CpuServiceImpl, s.run ops = .done s1 →
      (∀ app, (s.last_start_profiling_timestamps_.find app).isSome
        = (s.last_start_profiling_requests_.find app).isSome) →
      s.last_start_profiling_requests_.find "" = none →
      (∀ app, (s1.last_start_profiling_timestamps_.find app).isSome
        = (s1.last_start_profiling_requests_.find app).isSome) ∧
      s1.last_start_profiling_requests_.find "" = none := by
  induction ops with
  | nil =>
    intro s s1 h hk he
    simp only [run, Outcome.done.injEq] at h
    subst h
    exact ⟨hk, he⟩
  | cons op ops ih =>
    intro s s1 h hk he
    simp only [run] at h
    split at h
    · rename_i s2 hs2
      obtain ⟨hk2, he2⟩ := step_keys s s2 op hs2 hk he
      exact ih s2 s1 h hk2 he2
    · simp at h
    · simp at h

end CpuServiceImpl

/-- C19: in every state reached from the empty registry by StartProfilingApp,
StopProfilingApp, StopMonitoringApp and CheckAppProfilingState calls, an application has a
start timestamp exactly when it has a start request, and the empty name has neither.
So `CheckAppProfilingState` leaves the state as it is (it inserts into neither map), and it
reports `being_profiled = false` for a pid whose lookup gives the empty name. -/
theorem C19_timestamps_follow_requests (files : Files) (ops : List ServiceOp)
    (s : CpuServiceImpl) (hrun : (CpuServiceImpl.init files).run ops = .done s)
    (GetCmdlineForPid : Int → String) (now : Int) (request : ProfilingStateRequest)
    (response : ProfilingStateResponse) :
    (∀ app, (s.last_start_profiling_timestamps_.find app).isSome
      = (s.last_start_profiling_requests_.find app).isSome) ∧
    s.last_start_profiling_timestamps_.find "" = none ∧
    s.last_start_profiling_requests_.find "" = none ∧
    (s.CheckAppProfilingState GetCmdlineForPid now request response).1 = s ∧
    (GetCmdlineForPid request.session_pid = "" →
      (s.CheckAppProfilingState GetCmdlineForPid now request response).2.being_profiled
        = false) := by
  obtain ⟨hk, he⟩ := CpuServiceImpl.run_keys ops (CpuServiceImpl.init files) s hrun
    (fun _ => rfl) rfl
  have het : s.last_start_profiling_timestamps_.find "" = none := by
    have := hk ""
    rw [he] at this
    cases hts : s.last_start_profiling_timestamps_.find "" with
    | none => rfl
    | some t => rw [hts] at this; simp at this
  refine ⟨hk, het, he, CpuServiceImpl.check_keeps_state s GetCmdlineForPid now request
    response hk, ?_⟩
  intro hempty
  simp [CpuServiceImpl.CheckAppProfilingState, hempty, he]

/-- C19 after one successful start for pid 7 resolved to `"app"`: a check for a pid whose
lookup gives the empty name changes nothing and reports `being_profiled = false`. -/
theorem C19_timestamps_follow_requests_witness :
    (CpuServiceImpl.CheckAppProfilingState
        { app_pids_ := ⟨[(7, "app")]⟩,
          last_start_profiling_timestamps_ := ⟨[("app", 10)]⟩,
          last_start_profiling_requests_ :=
            ⟨[("app", ⟨7, .SIMPLEPERF, .SAMPLING, "arm", 1000⟩)]⟩,
          trace_path_ := "/data/trace",
          files := ⟨[]⟩,
          calls := [Call.simpleperf_StartProfiling "app" "arm" 1000] }
        (fun _ => "") 11 ⟨8⟩ ⟨true, 0, 0, none⟩).2.being_profiled = false :=
  (C19_timestamps_follow_requests StdMap.empty
    [.StartProfilingApp (fun _ => "app") 10 ⟨true, "/data/trace", "", StdMap.empty⟩
      ⟨7, .SIMPLEPERF, .SAMPLING, "arm", 1000⟩ ⟨.UNSPECIFIED, ""⟩]
    { app_pids_ := ⟨[(7, "app")]⟩,
      last_start_profiling_timestamps_ := ⟨[("app", 10)]⟩,
      last_start_profiling_requests_ :=
        ⟨[("app", ⟨7, .SIMPLEPERF, .SAMPLING, "arm", 1000⟩)]⟩,
      trace_path_ := "/data/trace",
      files := ⟨[]⟩,
      calls := [Call.simpleperf_StartProfiling "app" "arm" 1000] }
    (by decide) (fun _ => "") 11 ⟨8⟩ ⟨true, 0, 0, none⟩).2.2.2.2 rfl

/-- C13 fails on the code: pid 1 runs `"app"` and is profiled; the application restarts
as pid 2, which is profiled too; profiling of pid 1 is stopped.  In the state reached pid 2
is tracked as `"app"` but no start request (and no timestamp) is stored for `"app"`, and the
next `StopProfilingApp` for pid 2 fails the assertion on the stored request. -/
theorem C13_assertion_fails_after_restart :
    ∃ s3 : CpuServiceImpl,
      (CpuServiceImpl.init StdMap.empty).run
        [.StartProfilingApp (fun pid => if pid = 1 then "app" else "") 10
           ⟨true, "/data/trace", "", StdMap.empty⟩ ⟨1, .ART, .SAMPLING, "arm", 1000⟩
           ⟨.UNSPECIFIED, ""⟩,
         .StartProfilingApp (fun pid => if pid = 2 then "app" else "") 20
           ⟨true, "/data/trace", "", StdMap.empty⟩ ⟨2, .ART, .SAMPLING, "arm", 1000⟩
           ⟨.UNSPECIFIED, ""⟩,
         .StopProfilingApp ⟨true, "", StdMap.empty⟩ 0 ⟨1⟩ ⟨.UNSPECIFIED, "", "", 0⟩]
        = .done s3 ∧
      s3.app_pids_.find 2 = some "app" ∧
      s3.last_start_profiling_requests_.find "app" = none ∧
      s3.last_start_profiling_timestamps_.find "app" = none ∧
      (CpuServiceImpl.init StdMap.empty).run
        [.StartProfilingApp (fun pid => if pid = 1 then "app" else "") 10
           ⟨true, "/data/trace", "", StdMap.empty⟩ ⟨1, .ART, .SAMPLING, "arm", 1000⟩
           ⟨.UNSPECIFIED, ""⟩,
         .StartProfilingApp (fun pid => if pid = 2 then "app" else "") 20
           ⟨true, "/data/trace", "", StdMap.empty⟩ ⟨2, .ART, .SAMPLING, "arm", 1000⟩
           ⟨.UNSPECIFIED, ""⟩,
         .StopProfilingApp ⟨true, "", StdMap.empty⟩ 0 ⟨1⟩ ⟨.UNSPECIFIED, "", "", 0⟩,
         .StopProfilingApp ⟨true, "", StdMap.empty⟩ 0 ⟨2⟩ ⟨.UNSPECIFIED, "", "", 0⟩]
        = .assert_failed := by
  refine ⟨{ app_pids_ := ⟨[(2, "app")]⟩,
             last_start_profiling_timestamps_ := ⟨[]⟩,
             last_start_profiling_requests_ := ⟨[]⟩,
             trace_path_ := "",
             files := ⟨[]⟩,
             calls := [.activity_manager_StartProfiling .SAMPLING "app" 1000,
                       .activity_manager_StartProfiling .SAMPLING "app" 1000,
                       .activity_manager_StopProfiling "app" true] }, ?_, ?_, ?_, ?_, ?_⟩
  · simp [CpuServiceImpl.run, CpuServiceImpl.step, CpuServiceImpl.StopProfilingApp,
      CpuServiceImpl.StopProfilingAndCleanUp, CpuServiceImpl.StartProfilingApp,
      CpuServiceImpl.init, StdMap.empty, StdMap.assign, StdMap.assignIn, StdMap.find,
      StdMap.findIn, StdMap.erase, remove]
  · decide
  · decide
  · decide
  · simp [CpuServiceImpl.run, CpuServiceImpl.step, CpuServiceImpl.StopProfilingApp,
      CpuServiceImpl.StopProfilingAndCleanUp, CpuServiceImpl.StartProfilingApp,
      CpuServiceImpl.init, StdMap.empty, StdMap.assign, StdMap.assignIn, StdMap.find,
      StdMap.findIn, StdMap.erase, remove]

namespace CpuServiceImpl

theorem lastSuccessfulStart_snoc_other (history : List ServiceOp) (op : ServiceOp)
    (app : String) (request : CpuProfilingAppStartRequest)
    (h : lastSuccessfulStart history app request) (hop : ¬ isSuccessfulStartFor app op) :
    lastSuccessfulStart (history ++ [op]) app request := by
  obtain ⟨before, after, lookup, now, backend, response, rfl, hstart, hafter⟩ := h
  refine ⟨before, after ++ [op], lookup, now, backend, response, by simp, hstart, ?_⟩
  intro o ho
  rcases List.mem_append.mp ho with ho | ho
  · exact hafter o ho
  · rw [List.mem_singleton.mp ho]; exact hop

theorem lastSuccessfulStart_snoc_self (history : List ServiceOp)
    (GetCmdlineForPid : Int → String) (now : Int) (backend : StartResult)
    (request : CpuProfilingAppStartRequest) (response : CpuProfilingAppStartResponse)
    (app : String)
    (h : isSuccessfulStartFor app
      (ServiceOp.StartProfilingApp GetCmdlineForPid now backend request response)) :
    lastSuccessfulStart
      (history ++ [ServiceOp.StartProfilingApp GetCmdlineForPid now backend request response])
      app request :=
  ⟨history, [], GetCmdlineForPid, now, backend, response, rfl, h, by simp⟩

/-- A start request that is still stored after an `erase` was stored before it. -/
theorem find_of_find_erase {V : Type} (m : StdMap String V) (erased app : String) (v : V)
    (h : (m.erase erased).find app = some v) : m.find app = some v := by
  by_cases ha : app = erased
  · subst ha
    rw [StdMap.find_erase_self] at h
    cases h
  · rwa [StdMap.find_erase_other _ _ _ ha] at h

/-- Every call keeps: each stored start request is the request of the most recent
successful start for its application. -/
theorem step_history (history : List ServiceOp) (s s1 : CpuServiceImpl) (op : ServiceOp)
    (h : s.step op = .done s1)
    (hh : ∀ app stored, s.last_start_profiling_requests_.find app = some stored →
      lastSuccessfulStart history app stored) :
    ∀ app stored, s1.last_start_profiling_requests_.find app = some stored →
      lastSuccessfulStart (history ++ [op]) app stored := by
  cases op with
  | StartProfilingApp GetCmdlineForPid now backend request response =>
    simp only [step, Outcome.done.injEq] at h
    subst h
    by_cases hempty : GetCmdlineForPid request.session_pid = ""
    · intro app stored hfind
      simp only [StartProfilingApp, hempty, if_true] at hfind
      refine lastSuccessfulStart_snoc_other _ _ _ _ (hh app stored hfind) ?_
      rintro ⟨h1, h2, -⟩
      exact h2 (h1.symm.trans hempty)
    · by_cases hsucc : backend.success = true
      · intro app stored hfind
        simp only [StartProfilingApp, hempty, if_false, hsucc, if_true] at hfind
        by_cases ha : app = GetCmdlineForPid request.session_pid
        · subst ha
          rw [StdMap.find_assign_self] at hfind
          cases hfind
          exact lastSuccessfulStart_snoc_self _ _ _ _ _ _ _ ⟨rfl, hempty, hsucc⟩
        · rw [StdMap.find_assign_other _ _ _ _ ha] at hfind
          refine lastSuccessfulStart_snoc_other _ _ _ _ (hh app stored hfind) ?_
          rintro ⟨h1, -, -⟩
          exact ha h1.symm
      · intro app stored hfind
        simp only [StartProfilingApp, hempty, if_false, hsucc] at hfind
        refine lastSuccessfulStart_snoc_other _ _ _ _ (hh app stored hfind) ?_
        rintro ⟨-, -, h3⟩
        exact hsucc h3
  | StopProfilingApp backend rand request response =>
    simp only [step] at h
    split at h
    · rename_i r hr
      simp only [Outcome.done.injEq] at h
      subst h
      intro app stored hfind
      refine lastSuccessfulStart_snoc_other _ _ _ _ (hh app stored ?_) (fun hf => hf)
      rcases stop_done_cases s r.1 backend rand request.session_pid (some response) r.2 hr with
        ⟨-, -, hrq, -⟩ | ⟨erased, old, -, -, -, hrq, -⟩
      · rwa [hrq] at hfind
      · rw [hrq] at hfind
        exact find_of_find_erase _ _ _ _ hfind
    · simp at h
    · simp at h
  | StopMonitoringApp usage_status thread_status backend rand request response =>
    simp only [step] at h
    split at h
    · rename_i r hr
      simp only [Outcome.done.injEq] at h
      subst h
      intro app stored hfind
      refine lastSuccessfulStart_snoc_other _ _ _ _ (hh app stored ?_) (fun hf => hf)
      rcases stopMonitoring_done_cases s r.1 usage_status thread_status backend rand request
          response r.2 hr with
        ⟨-, -, hrq, -⟩ | ⟨erased, old, -, -, -, hrq, -⟩
      · rwa [hrq] at hfind
      · rw [hrq] at hfind
        exact find_of_find_erase _ _ _ _ hfind
    · simp at h
    · simp at h
  | CheckAppProfilingState GetCmdlineForPid now request response =>
    simp only [step, Outcome.done.injEq] at h
    subst h
    intro app stored hfind
    rw [check_keeps_requests] at hfind
    exact lastSuccessfulStart_snoc_other _ _ _ _ (hh app stored hfind) (fun hf => hf)

theorem run_history (ops : List ServiceOp) :
    ∀ (history : List ServiceOp) (s s1 : CpuServiceImpl), s.run ops = .done s1 →
      (∀ app stored, s.last_start_profiling_requests_.find app = some stored →
        lastSuccessfulStart history app stored) →
      ∀ app stored, s1.last_start_profiling_requests_.find app = some stored →
        lastSuccessfulStart (history ++ ops) app stored := by
  induction ops with
  | nil =>
    intro history s s1 h hh
    simp only [run, Outcome.done.injEq] at h
    subst h
    simpa using hh
  | cons op ops ih =>
    intro history s s1 h hh
    simp only [run] at h
    split at h
    · rename_i s2 hs2
      have := ih (history ++ [op]) s2 s1 h (step_history history s s2 op hs2 hh)
      simpa using this
    · simp at h
    · simp at h

end CpuServiceImpl

/-- The backend stopped for a stored session: in a state reached from the empty registry
in which `pid` is
tracked as `app` and a start request is stored for `app`, `StopProfilingAndCleanUp(pid,
response)` returns after exactly one collaborator call: a `StopProfiling(app, need_trace)`
with `need_trace = true` exactly when a response object is supplied.  The stored request is
the one of the most recent `StartProfilingApp` for `app` that succeeded (starts that failed
after it do not count), and the stop goes to the backend to which that start went. -/
theorem stop_calls_backend_of_last_start (files : Files) (ops : List ServiceOp)
    (s : CpuServiceImpl) (hrun : (CpuServiceImpl.init files).run ops = .done s)
    (backend : StopResult) (rand : Nat) (pid : Int)
    (response : Option CpuProfilingAppStopResponse) (app : String)
    (last_request : CpuProfilingAppStartRequest)
    (hpid : s.app_pids_.find pid = some app)
    (hreq : s.last_start_profiling_requests_.find app = some last_request) :
    ∃ s1 response1 stop,
      s.StopProfilingAndCleanUp backend rand pid response = .done (s1, response1) ∧
      s1.calls = s.calls ++ [stop] ∧
      stop.stopArgs = some (app, response.isSome) ∧
      CpuServiceImpl.lastSuccessfulStart ops app last_request ∧
      ∃ start,
        (∀ (s0 : CpuServiceImpl) (GetCmdlineForPid : Int → String) (now : Int)
            (started : StartResult) (start_response : CpuProfilingAppStartResponse),
          CpuServiceImpl.isSuccessfulStartFor app
            (ServiceOp.StartProfilingApp GetCmdlineForPid now started last_request
              start_response) →
          (s0.StartProfilingApp GetCmdlineForPid now started last_request
              start_response).1.calls = s0.calls ++ [start]) ∧
        stop.backend = start.backend ∧
        stop.backend.isSome = true := by
  have hlast : CpuServiceImpl.lastSuccessfulStart ops app last_request := by
    have := CpuServiceImpl.run_history ops [] (CpuServiceImpl.init files) s hrun
      (fun a st h => by cases h) app last_request hreq
    simpa using this
  obtain ⟨s1, response1, stop, hstop, hcalls, h1, h2, h3, -⟩ :=
    CpuServiceImpl.stop_of_tracked s backend rand pid response app last_request hpid hreq
  refine ⟨s1, response1, stop, hstop, hcalls, ?_, hlast, ?_⟩
  · cases hty : last_request.profiler_type
    · rw [h3 hty]; rfl
    · rw [h1 hty]; rfl
    · rw [h2 hty]; rfl
  · cases hty : last_request.profiler_type
    · refine ⟨Call.activity_manager_StartProfiling
        (if last_request.mode = .INSTRUMENTED then ProfilingMode.INSTRUMENTED
         else ProfilingMode.SAMPLING) app last_request.sampling_interval_us, ?_, ?_, ?_⟩
      · rintro s0 lookup now started resp ⟨ha, hne, hsucc⟩
        subst ha
        simp [CpuServiceImpl.StartProfilingApp, hne, hsucc, hty]
      · rw [h3 hty]; rfl
      · rw [h3 hty]; rfl
    · refine ⟨Call.simpleperf_StartProfiling app last_request.abi_cpu_arch
        last_request.sampling_interval_us, ?_, ?_, ?_⟩
      · rintro s0 lookup now started resp ⟨ha, hne, hsucc⟩
        subst ha
        simp [CpuServiceImpl.StartProfilingApp, hne, hsucc, hty]
      · rw [h1 hty]; rfl
      · rw [h1 hty]; rfl
    · refine ⟨Call.atrace_StartProfiling app last_request.sampling_interval_us, ?_, ?_, ?_⟩
      · rintro s0 lookup now started resp ⟨ha, hne, hsucc⟩
        subst ha
        simp [CpuServiceImpl.StartProfilingApp, hne, hsucc, hty]
      · rw [h2 hty]; rfl
      · rw [h2 hty]; rfl

/-- After a simpleperf start for pid 7 that succeeded and an atrace start for the same
application that failed: the stop goes to simpleperf, with `need_trace = false` for a null
response. -/
theorem stop_calls_backend_of_last_start_example :
    ∃ s1 response1,
      CpuServiceImpl.StopProfilingAndCleanUp
          { app_pids_ := ⟨[(7, "app")]⟩,
            last_start_profiling_timestamps_ := ⟨[("app", 10)]⟩,
            last_start_profiling_requests_ :=
              ⟨[("app", ⟨7, .SIMPLEPERF, .SAMPLING, "arm", 1000⟩)]⟩,
            trace_path_ := "/data/atrace",
            files := ⟨[]⟩,
            calls := [Call.simpleperf_StartProfiling "app" "arm" 1000,
                      Call.atrace_StartProfiling "app" 500] }
          ⟨true, "", ⟨[]⟩⟩ 0 7 none = .done (s1, response1) ∧
      s1.calls = [Call.simpleperf_StartProfiling "app" "arm" 1000,
                  Call.atrace_StartProfiling "app" 500,
                  Call.simpleperf_StopProfiling "app" false] := by
  obtain ⟨s1, response1, stop, hstop, hcalls, hargs, -, start, hstart, hback, -⟩ :=
    stop_calls_backend_of_last_start StdMap.empty
      [.StartProfilingApp (fun _ => "app") 10 ⟨true, "/data/trace", "", StdMap.empty⟩
         ⟨7, .SIMPLEPERF, .SAMPLING, "arm", 1000⟩ ⟨.UNSPECIFIED, ""⟩,
       .StartProfilingApp (fun _ => "app") 20 ⟨false, "/data/atrace", "busy", StdMap.empty⟩
         ⟨7, .ATRACE, .SAMPLING, "arm", 500⟩ ⟨.UNSPECIFIED, ""⟩]
      { app_pids_ := ⟨[(7, "app")]⟩,
        last_start_profiling_timestamps_ := ⟨[("app", 10)]⟩,
        last_start_profiling_requests_ :=
          ⟨[("app", ⟨7, .SIMPLEPERF, .SAMPLING, "arm", 1000⟩)]⟩,
        trace_path_ := "/data/atrace",
        files := ⟨[]⟩,
        calls := [Call.simpleperf_StartProfiling "app" "arm" 1000,
                  Call.atrace_StartProfiling "app" 500] }
      (by decide) ⟨true, "", ⟨[]⟩⟩ 0 7 none "app" ⟨7, .SIMPLEPERF, .SAMPLING, "arm", 1000⟩
      (by decide) (by decide)
  refine ⟨s1, response1, hstop, ?_⟩
  rw [hcalls]
  have hs := hstart (CpuServiceImpl.init StdMap.empty) (fun _ => "app") 10
    ⟨true, "/data/trace", "", StdMap.empty⟩ ⟨.UNSPECIFIED, ""⟩ ⟨rfl, by decide, rfl⟩
  have hstart_eq : start = Call.simpleperf_StartProfiling "app" "arm" 1000 := by
    have h2 : [Call.simpleperf_StartProfiling "app" "arm" 1000] = [start] := by
      simpa [CpuServiceImpl.StartProfilingApp, CpuServiceImpl.init] using hs
    exact (List.singleton_inj.mp h2).symm
  rw [hstart_eq] at hback
  cases stop <;> simp [Call.backend, Call.stopArgs] at hback hargs
  obtain ⟨rfl, rfl⟩ := hargs
  rfl

/-- C18 fails on the code: after simpleperf starts for pids 1 and 2 that both resolve to
`"app"` and a `StopMonitoringApp` for pid 1, pid 2 is still tracked, but
`StopProfilingAndCleanUp(2, response)` stops at its assertion on the stored request and
reaches no backend, although simpleperf served the last successful start for `"app"`. -/
theorem C18_stop_of_tracked_pid_reaches_no_backend :
    ∃ s3 : CpuServiceImpl,
      (CpuServiceImpl.init StdMap.empty).run
        [.StartProfilingApp (fun _ => "app") 10 ⟨true, "/data/trace", "", StdMap.empty⟩
           ⟨1, .SIMPLEPERF, .SAMPLING, "arm", 1000⟩ ⟨.UNSPECIFIED, ""⟩,
         .StartProfilingApp (fun _ => "app") 20 ⟨true, "/data/trace", "", StdMap.empty⟩
           ⟨2, .SIMPLEPERF, .SAMPLING, "arm", 1000⟩ ⟨.UNSPECIFIED, ""⟩,
         .StopMonitoringApp .SUCCESS .SUCCESS ⟨true, "", StdMap.empty⟩ 0 ⟨1⟩ ⟨.UNSPECIFIED⟩]
        = .done s3 ∧
      s3.app_pids_.find 2 = some "app" ∧
      s3.StopProfilingAndCleanUp ⟨true, "", StdMap.empty⟩ 0 2
        (some ⟨.UNSPECIFIED, "", "", 0⟩) = .assert_failed := by
  refine ⟨{ app_pids_ := ⟨[(2, "app")]⟩,
             last_start_profiling_timestamps_ := ⟨[]⟩,
             last_start_profiling_requests_ := ⟨[]⟩,
             trace_path_ := "",
             files := ⟨[]⟩,
             calls := [.simpleperf_StartProfiling "app" "arm" 1000,
                       .simpleperf_StartProfiling "app" "arm" 1000,
                       .cache_DeallocateAppCache 1,
                       .usage_sampler_RemoveProcess 1,
                       .thread_monitor_RemoveProcess 1,
                       .simpleperf_StopProfiling "app" false] }, ?_, ?_, ?_⟩
  · simp [CpuServiceImpl.run, CpuServiceImpl.step, CpuServiceImpl.StopMonitoringApp,
      CpuServiceImpl.StopProfilingAndCleanUp, CpuServiceImpl.StartProfilingApp,
      CpuServiceImpl.init, StdMap.empty, StdMap.assign, StdMap.assignIn, StdMap.find,
      StdMap.findIn, StdMap.erase, remove]
  · decide
  · decide

/-! ## Lemmas on `std::map`: key order -/

namespace StdMap

variable {K V : Type}

theorem mem_assignIn [LinearOrder K] (l : List (K × V)) (k : K) (v : V) (e : K × V)
    (he : e ∈ assignIn l k v) : e = (k, v) ∨ e ∈ l := by
  induction l with
  | nil => simpa [assignIn] using he
  | cons e1 rest ih =>
    obtain ⟨k1, v1⟩ := e1
    by_cases h1 : k < k1
    · simp only [assignIn, h1, if_true, List.mem_cons] at he
      simpa using he
    · by_cases h2 : k1 < k
      · simp only [assignIn, h1, h2, if_false, if_true, List.mem_cons] at he
        rcases he with he | he
        · exact Or.inr (by simp [he])
        · rcases ih he with h | h
          · exact Or.inl h
          · exact Or.inr (List.mem_cons_of_mem _ h)
      · simp only [assignIn, h1, h2, if_false, List.mem_cons] at he
        rcases he with he | he
        · exact Or.inl he
        · exact Or.inr (List.mem_cons_of_mem _ he)

/-- Assignment keeps the entries in strictly ascending key order. -/
theorem pairwise_assignIn [LinearOrder K] (l : List (K × V)) (k : K) (v : V)
    (hl : l.Pairwise (fun a b => a.1 < b.1)) :
    (assignIn l k v).Pairwise (fun a b => a.1 < b.1) := by
  induction l with
  | nil => simp [assignIn]
  | cons e1 rest ih =>
    obtain ⟨k1, v1⟩ := e1
    obtain ⟨hhead, hrest⟩ := List.pairwise_cons.mp hl
    by_cases h1 : k < k1
    · simp only [assignIn, h1, if_true]
      refine List.pairwise_cons.mpr ⟨?_, hl⟩
      intro e he
      rcases List.mem_cons.mp he with he | he
      · rw [he]; exact h1
      · exact lt_trans h1 (hhead e he)
    · by_cases h2 : k1 < k
      · simp only [assignIn, h1, h2, if_false, if_true]
        refine List.pairwise_cons.mpr ⟨?_, ih hrest⟩
        intro e he
        rcases mem_assignIn rest k v e he with he | he
        · rw [he]; exact h2
        · exact hhead e he
      · have hk : k = k1 := le_antisymm (not_lt.mp h2) (not_lt.mp h1)
        subst hk
        simp only [assignIn, h1, if_false]
        exact List.pairwise_cons.mpr ⟨hhead, hrest⟩

theorem findIn_eq_none_of_lt [DecidableEq K] [LinearOrder K] (l : List (K × V)) (k : K)
    (h : ∀ e ∈ l, k < e.1) : findIn l k = none := by
  induction l with
  | nil => rfl
  | cons e1 rest ih =>
    obtain ⟨k1, v1⟩ := e1
    have h1 : k < k1 := h (k1, v1) (List.mem_cons_self _ _)
    simp only [findIn, ne_of_gt h1, if_false]
    exact ih (fun e he => h e (List.mem_cons_of_mem _ he))

/-- In a list in strictly ascending key order, the entries are what `find` finds. -/
theorem mem_iff_findIn [DecidableEq K] [LinearOrder K] (l : List (K × V)) (k : K) (v : V)
    (hl : l.Pairwise (fun a b => a.1 < b.1)) :
    (k, v) ∈ l ↔ findIn l k = some v := by
  induction l with
  | nil => simp [findIn]
  | cons e1 rest ih =>
    obtain ⟨k1, v1⟩ := e1
    obtain ⟨hhead, hrest⟩ := List.pairwise_cons.mp hl
    by_cases hk : k1 = k
    · subst hk
      simp only [findIn, if_true, List.mem_cons, Prod.mk.injEq, true_and, Option.some.injEq]
      constructor
      · rintro (h | h)
        · exact h.symm
        · exact absurd (hhead _ h) (lt_irrefl _)
      · intro h; exact Or.inl h.symm
    · simp only [findIn, hk, if_false, List.mem_cons, Prod.mk.injEq]
      rw [← ih hrest]
      constructor
      · rintro (⟨h, -⟩ | h)
        · exact absurd h.symm hk
        · exact h
      · intro h; exact Or.inr h

/-- Sum of a weight over the entries after an assignment, in a list in strictly ascending
key order: the weight of the value replaced, if any, is exchanged for the new one. -/
theorem sum_assignIn [DecidableEq K] [LinearOrder K] (w : V → Nat) (l : List (K × V)) (k : K)
    (v : V) (hl : l.Pairwise (fun a b => a.1 < b.1)) :
    ((assignIn l k v).map (fun e => w e.2)).sum
        + (match findIn l k with | none => 0 | some old => w old)
      = (l.map (fun e => w e.2)).sum + w v := by
  induction l with
  | nil => simp [assignIn, findIn]
  | cons e1 rest ih =>
    obtain ⟨k1, v1⟩ := e1
    obtain ⟨hhead, hrest⟩ := List.pairwise_cons.mp hl
    by_cases h1 : k < k1
    · have hnone : findIn ((k1, v1) :: rest) k = none :=
        findIn_eq_none_of_lt _ _ (fun e he => by
          rcases List.mem_cons.mp he with he | he
          · rw [he]; exact h1
          · exact lt_trans h1 (hhead e he))
      rw [hnone]
      simp only [assignIn, h1, if_true, List.map_cons, List.sum_cons]
      omega
    · by_cases h2 : k1 < k
      · have := ih hrest
        simp only [assignIn, h1, h2, if_false, if_true, List.map_cons, List.sum_cons, findIn,
          ne_of_lt h2]
        omega
      · have hk : k = k1 := le_antisymm (not_lt.mp h2) (not_lt.mp h1)
        subst hk
        simp only [assignIn, h1, if_false, List.map_cons, List.sum_cons, findIn, if_true]
        omega

end StdMap

/-! ## Lemmas on `GetThreads` -/

namespace CpuServiceImpl

theorem addActivity_of_none (threads : StdMap Int Thread) (activity : Activity)
    (h : threads.find activity.tid = none) :
    addActivity threads activity
      = (threads.assign activity.tid
          { tid := activity.tid, name := activity.name, activities := [] }).assign
          activity.tid
          { tid := activity.tid, name := activity.name,
            activities := [{ timestamp := activity.timestamp, new_state := activity.state }] } := by
  simp only [addActivity, h,
    StdMap.index_of_find _ _ _ (StdMap.find_assign_self threads activity.tid
      { tid := activity.tid, name := activity.name, activities := [] }),
    List.nil_append]

theorem addActivity_of_some (threads : StdMap Int Thread) (activity : Activity)
    (thread : Thread) (h : threads.find activity.tid = some thread) :
    addActivity threads activity
      = threads.assign activity.tid
          { thread with activities := thread.activities ++
              [{ timestamp := activity.timestamp, new_state := activity.state }] } := by
  simp only [addActivity, h, StdMap.index_of_find _ _ _ h]

theorem addActivity_find_other (threads : StdMap Int Thread) (activity : Activity)
    (tid : Int) (h : tid ≠ activity.tid) :
    (addActivity threads activity).find tid = threads.find tid := by
  cases hf : threads.find activity.tid with
  | none =>
    rw [addActivity_of_none _ _ hf, StdMap.find_assign_other _ _ _ _ h,
      StdMap.find_assign_other _ _ _ _ h]
  | some thread =>
    rw [addActivity_of_some _ _ _ hf, StdMap.find_assign_other _ _ _ _ h]

theorem addActivity_pairwise (threads : StdMap Int Thread) (activity : Activity)
    (h : threads.entries.Pairwise (fun a b => a.1 < b.1)) :
    (addActivity threads activity).entries.Pairwise (fun a b => a.1 < b.1) := by
  cases hf : threads.find activity.tid with
  | none =>
    rw [addActivity_of_none _ _ hf]
    exact StdMap.pairwise_assignIn _ _ _ (StdMap.pairwise_assignIn _ _ _ h)
  | some thread =>
    rw [addActivity_of_some _ _ _ hf]
    exact StdMap.pairwise_assignIn _ _ _ h

/-- Each activity adds one event to the map. -/
theorem addActivity_count (threads : StdMap Int Thread) (activity : Activity)
    (h : threads.entries.Pairwise (fun a b => a.1 < b.1)) :
    ((addActivity threads activity).entries.map (fun e => e.2.activities.length)).sum
      = (threads.entries.map (fun e => e.2.activities.length)).sum + 1 := by
  cases hf : threads.find activity.tid with
  | none =>
    rw [addActivity_of_none _ _ hf]
    have h1 := StdMap.sum_assignIn (fun t : Thread => t.activities.length) threads.entries
      activity.tid { tid := activity.tid, name := activity.name, activities := [] } h
    have hf1 : StdMap.findIn threads.entries activity.tid = none := hf
    rw [hf1] at h1
    have h2 := StdMap.sum_assignIn (fun t : Thread => t.activities.length)
      (StdMap.assignIn threads.entries activity.tid
        { tid := activity.tid, name := activity.name, activities := [] })
      activity.tid
      { tid := activity.tid, name := activity.name,
        activities := [{ timestamp := activity.timestamp, new_state := activity.state }] }
      (StdMap.pairwise_assignIn _ _ _ h)
    rw [StdMap.findIn_assignIn_self] at h2
    simp only [List.length_nil, List.length_singleton] at h1 h2
    show ((StdMap.assignIn (StdMap.assignIn threads.entries _ _) _ _).map _).sum = _
    omega
  | some thread =>
    rw [addActivity_of_some _ _ _ hf]
    have h1 := StdMap.sum_assignIn (fun t : Thread => t.activities.length) threads.entries
      activity.tid
      { thread with activities := thread.activities ++
          [{ timestamp := activity.timestamp, new_state := activity.state }] } h
    have hf1 : StdMap.findIn threads.entries activity.tid = some thread := hf
    rw [hf1] at h1
    simp only [List.length_append, List.length_singleton] at h1
    show ((StdMap.assignIn threads.entries _ _).map _).sum = _
    omega

/-- The map built from a sequence of activities: its keys are in strictly ascending
order, the entry of a thread id carries the name of the first activity with that id and
one event per activity with that id, in order, and the events add up to the activities. -/
theorem fold_addActivity (acts : List Activity) :
    (acts.foldl addActivity StdMap.empty).entries.Pairwise (fun a b => a.1 < b.1) ∧
    (∀ tid : Int,
      (acts.foldl addActivity StdMap.empty).find tid
        = match acts.find? (fun a => a.tid = tid) with
          | none => none
          | some first =>
            some { tid := tid, name := first.name,
                   activities := (acts.filter (fun a => a.tid = tid)).map
                     (fun a => { timestamp := a.timestamp, new_state := a.state }) }) ∧
    ((acts.foldl addActivity StdMap.empty).entries.map
        (fun e => e.2.activities.length)).sum = acts.length := by
  induction acts using List.reverseRecOn with
  | nil =>
    refine ⟨by simp [StdMap.empty], ?_, by simp [StdMap.empty]⟩
    intro tid
    simp [StdMap.empty, StdMap.find, StdMap.findIn]
  | append_singleton acts a ih =>
    obtain ⟨hsorted, hfind, hcount⟩ := ih
    rw [List.foldl_append]
    simp only [List.foldl_cons, List.foldl_nil]
    refine ⟨addActivity_pairwise _ _ hsorted, ?_, ?_⟩
    · intro tid
      by_cases ht : tid = a.tid
      · subst ht
        have hprev := hfind a.tid
        cases hfirst : acts.find? (fun b => b.tid = a.tid) with
        | none =>
          rw [hfirst] at hprev
          have hfilter : acts.filter (fun b => b.tid = a.tid) = [] := by
            rw [List.filter_eq_nil_iff]
            intro b hb
            exact List.find?_eq_none.mp hfirst b hb
          rw [addActivity_of_none _ _ hprev, StdMap.find_assign_self]
          simp [List.find?_append, hfirst, List.filter_append, hfilter]
        | some first =>
          rw [hfirst] at hprev
          rw [addActivity_of_some _ _ _ hprev, StdMap.find_assign_self]
          simp [List.find?_append, hfirst, List.filter_append]
      · rw [addActivity_find_other _ _ _ ht, hfind tid]
        have hne : ¬ a.tid = tid := fun h => ht h.symm
        simp [List.find?_append, List.filter_append, hne]
    · rw [addActivity_count _ _ hsorted, hcount]
      simp

/-- The nested loops of `GetThreads` visit the activities of all samples in order. -/
theorem foldl_samples (samples : List ThreadsSample) :
    ∀ threads : StdMap Int Thread,
      samples.foldl (fun threads sample => sample.activities.foldl addActivity threads) threads
        = (samples.flatMap (fun sample => sample.activities)).foldl addActivity threads := by
  induction samples with
  | nil => intro threads; rfl
  | cons sample rest ih =>
    intro threads
    simp only [List.foldl_cons, List.flatMap_cons, List.foldl_append]
    exact ih _

/-- The threads `GetThreads` appends to the response are the values of the map built
from the activities, in the order of its keys. -/
theorem getThreads_threads (threads_response : ThreadSampleResponse)
    (response : GetThreadsResponse) :
    (GetThreads threads_response response).threads
      = response.threads ++
          (((threads_response.activity_samples.flatMap
              (fun sample => sample.activities)).foldl addActivity
              StdMap.empty).entries.map (fun thread => thread.2)) := by
  simp only [GetThreads, foldl_samples]
  split
  · split <;> rfl
  · rfl

/-- Every entry of the map built from `acts` is the thread of its key. -/
theorem entry_of_fold (acts : List Activity) (e : Int × Thread)
    (he : e ∈ (acts.foldl addActivity StdMap.empty).entries) :
    ∃ first, acts.find? (fun a => a.tid = e.1) = some first ∧
      e.2 = { tid := e.1, name := first.name,
              activities := (acts.filter (fun a => a.tid = e.1)).map
                (fun a => { timestamp := a.timestamp, new_state := a.state }) } := by
  obtain ⟨hsorted, hfind, -⟩ := fold_addActivity acts
  have h1 : StdMap.findIn (acts.foldl addActivity StdMap.empty).entries e.1 = some e.2 :=
    (StdMap.mem_iff_findIn _ e.1 e.2 hsorted).mp he
  have h2 := hfind e.1
  rw [show (acts.foldl addActivity StdMap.empty).find e.1 = some e.2 from h1] at h2
  cases hfirst : acts.find? (fun a => a.tid = e.1) with
  | none => rw [hfirst] at h2; cases h2
  | some first =>
    rw [hfirst] at h2
    exact ⟨first, rfl, Option.some.inj h2⟩

/-- The thread ids of the emitted threads are the keys of the map, in its order. -/
theorem tids_of_fold (acts : List Activity) :
    ((acts.foldl addActivity StdMap.empty).entries.map (fun thread => thread.2)).map
        (fun t => t.tid)
      = (acts.foldl addActivity StdMap.empty).entries.map (fun e => e.1) := by
  rw [List.map_map]
  apply List.map_congr_left
  intro e he
  obtain ⟨first, -, h⟩ := entry_of_fold acts e he
  show e.2.tid = e.1
  rw [h]

theorem tids_of_fold_pairwise (acts : List Activity) :
    (((acts.foldl addActivity StdMap.empty).entries.map (fun thread => thread.2)).map
        (fun t => t.tid)).Pairwise (fun a b => a < b) := by
  rw [tids_of_fold, List.pairwise_map]
  exact (fold_addActivity acts).1

theorem mem_tids_of_fold (acts : List Activity) (tid : Int) :
    tid ∈ ((acts.foldl addActivity StdMap.empty).entries.map (fun thread => thread.2)).map
        (fun t => t.tid) ↔ ∃ a ∈ acts, a.tid = tid := by
  rw [tids_of_fold]
  obtain ⟨hsorted, hfind, -⟩ := fold_addActivity acts
  constructor
  · intro h
    obtain ⟨e, he, rfl⟩ := List.mem_map.mp h
    obtain ⟨first, hfirst, -⟩ := entry_of_fold acts e he
    refine ⟨first, List.mem_of_find?_eq_some hfirst, ?_⟩
    have := List.find?_some hfirst
    simpa using this
  · rintro ⟨a, ha, rfl⟩
    cases hfirst : acts.find? (fun b => b.tid = a.tid) with
    | none =>
      have := List.find?_eq_none.mp hfirst a ha
      simp at this
    | some first =>
      have h2 := hfind a.tid
      rw [hfirst] at h2
      have hmem := (StdMap.mem_iff_findIn _ a.tid _ hsorted).mpr h2
      exact List.mem_map.mpr ⟨_, hmem, rfl⟩

end CpuServiceImpl

/-- C15: the threads `GetThreads` adds to the response carry exactly the thread ids that
occur in the activities of the samples, each once.  The name of each is the name of the
first activity with its id (samples in order, activities in order within a sample) and
its events are the `(timestamp, state)` pairs of all activities with its id, in that order.
The events of all these threads add up to the number of activities. -/
theorem C15_threads_grouped_by_id (threads_response : ThreadSampleResponse)
    (response : GetThreadsResponse) :
    ∃ emitted : List Thread,
      (CpuServiceImpl.GetThreads threads_response response).threads
        = response.threads ++ emitted ∧
      (∀ tid : Int, tid ∈ emitted.map (fun t => t.tid) ↔
        ∃ a ∈ threads_response.activity_samples.flatMap (fun sample => sample.activities),
          a.tid = tid) ∧
      (emitted.map (fun t => t.tid)).Nodup ∧
      (∀ thread ∈ emitted, ∃ first,
        (threads_response.activity_samples.flatMap (fun sample => sample.activities)).find?
            (fun a => a.tid = thread.tid) = some first ∧
        thread.name = first.name ∧
        thread.activities
          = ((threads_response.activity_samples.flatMap
                (fun sample => sample.activities)).filter
              (fun a => a.tid = thread.tid)).map
              (fun a => { timestamp := a.timestamp, new_state := a.state })) ∧
      (emitted.map (fun t => t.activities.length)).sum
        = (threads_response.activity_samples.flatMap
            (fun sample => sample.activities)).length := by
  refine ⟨_, CpuServiceImpl.getThreads_threads threads_response response,
    CpuServiceImpl.mem_tids_of_fold _, ?_, ?_, ?_⟩
  · exact (CpuServiceImpl.tids_of_fold_pairwise _).imp (fun h => ne_of_lt h)
  · intro thread hthread
    obtain ⟨e, he, rfl⟩ := List.mem_map.mp hthread
    obtain ⟨first, hfirst, h⟩ := CpuServiceImpl.entry_of_fold _ e he
    have htid : e.2.tid = e.1 := by rw [h]
    refine ⟨first, by rw [htid]; exact hfirst, by rw [h], ?_⟩
    rw [htid]
    rw [h]
  · rw [List.map_map]
    exact (CpuServiceImpl.fold_addActivity _).2.2

/-- C16: the threads `GetThreads` adds to the response are in strictly ascending order of
thread id, so no id appears twice; the list of ids is the same for any two cache responses
whose activities carry the same ids, whatever the order in which the ids occur. -/
theorem C16_threads_ascending (threads_response : ThreadSampleResponse)
    (response : GetThreadsResponse) :
    ∃ emitted : List Thread,
      (CpuServiceImpl.GetThreads threads_response response).threads
        = response.threads ++ emitted ∧
      (emitted.map (fun t => t.tid)).Pairwise (fun a b => a < b) ∧
      (emitted.map (fun t => t.tid)).Nodup ∧
      (∀ (other : ThreadSampleResponse) (other_response : GetThreadsResponse),
        (∀ tid : Int,
          (∃ a ∈ other.activity_samples.flatMap (fun sample => sample.activities),
            a.tid = tid) ↔
          (∃ a ∈ threads_response.activity_samples.flatMap
            (fun sample => sample.activities), a.tid = tid)) →
        ∃ other_emitted : List Thread,
          (CpuServiceImpl.GetThreads other other_response).threads
            = other_response.threads ++ other_emitted ∧
          other_emitted.map (fun t => t.tid) = emitted.map (fun t => t.tid)) := by
  refine ⟨_, CpuServiceImpl.getThreads_threads threads_response response,
    CpuServiceImpl.tids_of_fold_pairwise _,
    (CpuServiceImpl.tids_of_fold_pairwise _).imp (fun h => ne_of_lt h), ?_⟩
  intro other other_response hsame
  refine ⟨_, CpuServiceImpl.getThreads_threads other other_response, ?_⟩
  have h1 := CpuServiceImpl.tids_of_fold_pairwise
    (other.activity_samples.flatMap (fun sample => sample.activities))
  have h2 := CpuServiceImpl.tids_of_fold_pairwise
    (threads_response.activity_samples.flatMap (fun sample => sample.activities))
  refine List.eq_of_perm_of_sorted ?_ h1 h2
  refine (List.perm_ext_iff_of_nodup (h1.imp (fun h => ne_of_lt h))
    (h2.imp (fun h => ne_of_lt h))).mpr ?_
  intro tid
  rw [CpuServiceImpl.mem_tids_of_fold, CpuServiceImpl.mem_tids_of_fold]
  exact hsame tid

/-! ## Properties of `GetRadioState` -/

/-- C21 fails on the code: in the output below `"mNetworkActive="` first occurs at
position 20 and its line ends at position 40; the rest of that line is
`mNetworkActive=false`, without `"true"`.  `substr(start, end)` takes `end = 40` chars from
position 20 instead of the `40 - 20` chars of the line, so the `"true"` of the next line is
found and the result is `ACTIVE`; without the next line the result is `SLEEPING`. -/
theorem C21_next_line_changes_radio_state :
    StdString.find "Network state dump\n mNetworkActive=false\n mDataEnabled=true\n".toList
        "mNetworkActive=".toList 0 = some 20 ∧
    StdString.findChar "Network state dump\n mNetworkActive=false\n mDataEnabled=true\n".toList
        '\n' 20 = some 40 ∧
    StdString.substr "Network state dump\n mNetworkActive=false\n mDataEnabled=true\n".toList
        20 (some (40 - 20)) = "mNetworkActive=false".toList ∧
    StdString.find "mNetworkActive=false".toList "true".toList 0 = none ∧
    StdString.substr "Network state dump\n mNetworkActive=false\n mDataEnabled=true\n".toList
        20 (some 40) = "mNetworkActive=false\n mDataEnabled=true\n".toList ∧
    ConnectivitySampler.GetRadioState true
        "Network state dump\n mNetworkActive=false\n mDataEnabled=true\n".toList = .ACTIVE ∧
    ConnectivitySampler.GetRadioState true
        "Network state dump\n mNetworkActive=false\n".toList = .SLEEPING := by
  refine ⟨?_, ?_, ?_, ?_, ?_, ?_, ?_⟩ <;> decide

end profiler
